import Mathlib

/-!
Verification development for the Theme Intelligence Extractor core
(crawler module and extraction module). The TypeScript sources are shallowly
embedded: text is modelled as `List Char`, JavaScript numbers used for
weights/confidences as `ℚ`, the JS `Map`/`Set` as insertion-ordered lists,
and the network as explicit oracles. Regex-based scanning from the source
is modelled by executable fuelled scanners that implement the exact
pattern semantics (case-insensitive flags, greedy classes with the
backtracking the concrete patterns admit, and the global-flag `lastIndex`
statefulness of `COLOR_REGEX`).
-/

/-! ## Character and string utilities (List Char model of JS strings) -/

abbrev Str := List Char

/-- ASCII lower-casing, as used by `toLowerCase` and the `i` regex flag on
the ASCII inputs scanned here. -/
def asciiLower (c : Char) : Char :=
  if ('A') ≤ c ∧ c ≤ ('Z') then Char.ofNat (c.toNat + 32) else c

def lowerStr (s : Str) : Str := s.map asciiLower

/-- JS regex word character class `[A-Za-z0-9_]`, for `\b` boundaries. -/
def isWordChar (c : Char) : Bool :=
  (decide (('a') ≤ c ∧ c ≤ ('z'))) || (decide (('A') ≤ c ∧ c ≤ ('Z'))) ||
  (decide (('0') ≤ c ∧ c ≤ ('9'))) || c == ('_')

def isAsciiDigit (c : Char) : Bool := decide (('0') ≤ c ∧ c ≤ ('9'))

def isAsciiAlpha (c : Char) : Bool :=
  (decide (('a') ≤ c ∧ c ≤ ('z'))) || (decide (('A') ≤ c ∧ c ≤ ('Z')))

def isLowerAlpha (c : Char) : Bool := decide (('a') ≤ c ∧ c ≤ ('z'))

def isHexDigit (c : Char) : Bool :=
  isAsciiDigit c || (decide (('a') ≤ c ∧ c ≤ ('f'))) || (decide (('A') ≤ c ∧ c ≤ ('F')))

/-- Whitespace as matched by the JS `\s` class / `String.trim` on the ASCII
range relevant here. -/
def isWS (c : Char) : Bool :=
  c == (' ') || c == ('\t') || c == ('\n') || c == ('\x0d') ||
  c == ('\x0b') || c == ('\x0c')

/-- JS `String.trim`. -/
def trimStr (s : Str) : Str :=
  ((s.dropWhile isWS).reverse.dropWhile isWS).reverse

/-- Substring test (`String.includes` with both sides already lower-cased
where case-insensitivity is wanted). -/
def containsSub (pat : Str) : Str → Bool
  | [] => pat.isEmpty
  | c :: rest => pat.isPrefixOf (c :: rest) || containsSub pat rest

/-- Split on a separator character (JS `String.split`). -/
def splitOnCharAux (sep : Char) : Str → Str → List Str
  | [], acc => [acc.reverse]
  | c :: rest, acc =>
    if c == sep then acc.reverse :: splitOnCharAux sep rest []
    else splitOnCharAux sep rest (c :: acc)

def splitOnChar (sep : Char) (s : Str) : List Str := splitOnCharAux sep s []

/-- JS `String.replace` with a plain-string pattern: replace the first
occurrence only. -/
def replaceFirst (pat repl : Str) : Str → Str
  | [] => if pat.isEmpty then repl else []
  | c :: rest =>
    if pat.isPrefixOf (c :: rest) then repl ++ (c :: rest).drop pat.length
    else c :: replaceFirst pat repl rest

/-- JS `Array.join('\n')`. -/
def joinNL (l : List Str) : Str := List.intercalate [('\n')] l

/-- Decimal rendering of a natural number (JS template `${n}` for the
non-negative counts that occur here). -/
def natToStr (n : Nat) : Str := Nat.toDigits 10 n

/-- JS `Math.round` (round half towards positive infinity) on the
non-negative rationals produced by the coverage computation. -/
def roundQ (q : ℚ) : Nat := (Int.floor (q + 1/2)).toNat

/-- Insertion-ordered set add (JS `Set.add`). -/
def addUniq (l : List Str) (x : Str) : List Str :=
  if l.contains x then l else l ++ [x]

/-- Case-insensitive literal match at the start of the input: the pattern is
given lower-cased; returns the actually consumed characters and the rest. -/
def ciPrefix : Str → Str → Option (Str × Str)
  | [], s => some ([], s)
  | _ :: _, [] => none
  | p :: ps, c :: cs =>
    if asciiLower c == p then (ciPrefix ps cs).map (fun t => (c :: t.1, t.2))
    else none

/-! ## Regex-shaped scanners

Each definition below implements exactly one regular expression from the
source, by position scanning with a structural fuel (always called with
fuel strictly greater than the remaining length, so the fuel never runs
out; it only makes the recursion structural). -/

/-- Value part `\s*([^...]+)` after a `:`— greedy `\s*` with the one
backtracking step the pattern admits: the group must be non-empty, so the
whitespace run gives characters back until the class run at its end is
non-empty. Returns (number of whitespace chars consumed, group). -/
def valueAfterWsAux (r : Str) (cls : Char → Bool) : Nat → Option (Nat × Str)
  | 0 =>
    let run := r.takeWhile cls
    if run.isEmpty then none else some (0, run)
  | j + 1 =>
    let run := (r.drop (j + 1)).takeWhile cls
    if run.isEmpty then valueAfterWsAux r cls j else some (j + 1, run)

def valueAfterWs (r : Str) (cls : Char → Bool) : Option (Nat × Str) :=
  valueAfterWsAux r cls (r.takeWhile isWS).length

/-- Character class `[a-zA-Z0-9_-]` of `CSS_VAR_REGEX`'s name group. -/
def isVarNameChar (c : Char) : Bool := isAsciiAlpha c || isAsciiDigit c || c == ('_') || c == ('-')

/-- Character class `[^;}\n]` of `CSS_VAR_REGEX`'s value group. -/
def isVarValChar (c : Char) : Bool := !(c == (';') || c == ('\x7d') || c == ('\n'))

/-- One attempt of `CSS_VAR_REGEX = --([a-zA-Z0-9_-]+)\s*:\s*([^;}\n]+)` at
the start of the input. Returns (full match, name group, value group, rest
after the match). -/
def cssVarAt : Str → Option (Str × Str × Str × Str)
  | c1 :: c2 :: rest =>
    if c1 == ('-') && c2 == ('-') then
      let name := rest.takeWhile isVarNameChar
      if name.isEmpty then none
      else
        let r1 := rest.drop name.length
        let ws1 := r1.takeWhile isWS
        match r1.drop ws1.length with
        | c3 :: r2 =>
          if c3 == (':') then
            match valueAfterWs r2 isVarValChar with
            | some (j, value) =>
              let full := c1 :: c2 :: name ++ ws1 ++ (':') :: r2.take j ++ value
              some (full, name, value, r2.drop (j + value.length))
            | none => none
          else none
        | [] => none
    else none
  | _ => none

/-- All matches of the global `CSS_VAR_REGEX`, leftmost first, each search
resuming at the end of the previous match (the source resets `lastIndex`
to 0 before every such loop). Entries are (full match, name, value). -/
def cssVarScan : Nat → Str → List (Str × Str × Str)
  | 0, _ => []
  | _ + 1, [] => []
  | fuel + 1, c :: rest =>
    match cssVarAt (c :: rest) with
    | some (full, name, value, after) => (full, name, value) :: cssVarScan fuel after
    | none => cssVarScan fuel rest

def cssVarMatches (s : Str) : List (Str × Str × Str) := cssVarScan (s.length + 1) s

/-- Word-boundary test after `k` further characters of `rest` (used for the
`\b` that closes the hex alternative of `COLOR_REGEX`). -/
def hexBoundary (rest : Str) (k : Nat) : Bool :=
  match rest.drop k with
  | [] => true
  | c :: _ => !(isWordChar c)

/-- Greedy `{3,8}` with backtracking: lengths are tried from 8 downwards
and the first length within the run that satisfies the boundary wins. -/
def hexTryLen (rest : Str) (runLen : Nat) : Nat → Option Nat
  | 0 => none
  | k + 1 =>
    if 3 ≤ k + 1 && k + 1 ≤ runLen && hexBoundary rest (k + 1) then some (k + 1)
    else hexTryLen rest runLen k

/-- Alternative `#([a-fA-F0-9]{3,8})\b` of `COLOR_REGEX` at the start of
the input. Returns (match, rest). -/
def hexColorAt : Str → Option (Str × Str)
  | c :: rest =>
    if c == ('#') then
      let run := rest.takeWhile isHexDigit
      match hexTryLen rest run.length 8 with
      | some k => some (c :: rest.take k, rest.drop k)
      | none => none
    else none
  | [] => none

/-- Suffix `\s*\([^)]+\)` shared by the `rgba?`/`hsla?` alternatives of
`COLOR_REGEX`. Returns (consumed text, rest). -/
def parenPart (s : Str) : Option (Str × Str) :=
  let ws := s.takeWhile isWS
  match s.drop ws.length with
  | c :: r2 =>
    if c == ('(') then
      let inner := r2.takeWhile (fun d => !(d == (')')))
      if inner.isEmpty then none
      else
        match r2.drop inner.length with
        | d :: r3 => if d == (')') then some (ws ++ ('(') :: inner ++ [(')')], r3) else none
        | [] => none
    else none
  | [] => none

/-- Alternative `NAMEa?\s*\([^)]+\)` (case-insensitive, greedy optional
`a` tried first) of `COLOR_REGEX` at the start of the input. -/
def fnColorAt (name : Str) (s : Str) : Option (Str × Str) :=
  match ciPrefix (name ++ [('a')]) s with
  | some (tA, rA) =>
    match parenPart rA with
    | some (p, rest) => some (tA ++ p, rest)
    | none =>
      match ciPrefix name s with
      | some (t, r) =>
        match parenPart r with
        | some (p, rest) => some (t ++ p, rest)
        | none => none
      | none => none
  | none =>
    match ciPrefix name s with
    | some (t, r) =>
      match parenPart r with
      | some (p, rest) => some (t ++ p, rest)
      | none => none
    | none => none

/-- `COLOR_REGEX` alternation at one position: hex, then `rgba?(...)`,
then `hsla?(...)`. -/
def colorAt (s : Str) : Option (Str × Str) :=
  match hexColorAt s with
  | some m => some m
  | none =>
    match fnColorAt [('r'), ('g'), ('b')] s with
    | some m => some m
    | none => fnColorAt [('h'), ('s'), ('l')] s

/-- Leftmost `COLOR_REGEX` match at absolute position ≥ `pos` in the given
suffix; returns (match text, end position of the match). -/
def colorScan : Nat → Str → Nat → Option (Str × Nat)
  | 0, _, _ => none
  | _ + 1, [], _ => none
  | fuel + 1, c :: rest, pos =>
    match colorAt (c :: rest) with
    | some (m, _) => some (m, pos + m.length)
    | none => colorScan fuel rest (pos + 1)

/-- Search for a `COLOR_REGEX` match starting at index `L` of `s`, the way
a global JS regex searches from `lastIndex`. -/
def colorSearchFrom (s : Str) (L : Nat) : Option (Str × Nat) :=
  colorScan (s.length + 1) (s.drop L) L

/-- `COLOR_REGEX.test` on a regex carrying the `g` flag: searches from
`lastIndex`, which it advances to the match end on success and resets to 0
on failure. Returns (verdict, new lastIndex). -/
def colorTest (s : Str) (lastIdx : Nat) : Bool × Nat :=
  match colorSearchFrom s lastIdx with
  | some (_, e) => (true, e)
  | none => (false, 0)


/-- One attempt of the strip pattern `<\/?style[^>]*>` at the start of the
input; returns the rest after the tag. -/
def styleTagAt (s : Str) : Option Str :=
  match s with
  | c :: rest =>
    if c == ('<') then
      let rest2 := match rest with
        | d :: r2 => if d == ('/') then r2 else rest
        | [] => rest
      match ciPrefix [('s'), ('t'), ('y'), ('l'), ('e')] rest2 with
      | some (_, r3) =>
        let attrs := r3.takeWhile (fun d => !(d == ('>')))
        match r3.drop attrs.length with
        | d :: r4 => if d == ('>') then some r4 else none
        | [] => none
      | none => none
    else none
  | [] => none

/-- `String.replace(/<\/?style[^>]*>/gi, '')`. -/
def stripStyleTags : Nat → Str → Str
  | 0, s => s
  | _ + 1, [] => []
  | fuel + 1, c :: rest =>
    match styleTagAt (c :: rest) with
    | some after => stripStyleTags fuel after
    | none => c :: stripStyleTags fuel rest

/-- Opening `<style[^>]*>`; returns the rest after the `>`. -/
def styleOpenAt (s : Str) : Option Str :=
  match s with
  | c :: rest =>
    if c == ('<') then
      match ciPrefix [('s'), ('t'), ('y'), ('l'), ('e')] rest with
      | some (_, r3) =>
        let attrs := r3.takeWhile (fun d => !(d == ('>')))
        match r3.drop attrs.length with
        | d :: r4 => if d == ('>') then some r4 else none
        | [] => none
      | none => none
    else none
  | [] => none

/-- Lazy `([\s\S]*?)<\/style>`: content up to the earliest close tag.
Returns (content, rest after the close tag). -/
def styleContentTo : Nat → Str → Option (Str × Str)
  | 0, _ => none
  | _ + 1, [] => none
  | fuel + 1, c :: rest =>
    match ciPrefix [('<'), ('/'), ('s'), ('t'), ('y'), ('l'), ('e'), ('>')] (c :: rest) with
    | some (_, after) => some ([], after)
    | none =>
      match styleContentTo fuel rest with
      | some (content, after) => some (c :: content, after)
      | none => none

/-- All matches of `/<style[^>]*>([\s\S]*?)<\/style>/gi` over a page's
HTML, each full match then stripped of the style tags themselves, exactly
as `extractTypographyScale` prepares its inline-CSS units. -/
def styleBlocksScan : Nat → Str → List Str
  | 0, _ => []
  | _ + 1, [] => []
  | fuel + 1, c :: rest =>
    match styleOpenAt (c :: rest) with
    | some afterOpen =>
      match styleContentTo (afterOpen.length + 1) afterOpen with
      | some (content, after) =>
        stripStyleTags (content.length + 1) content :: styleBlocksScan fuel after
      | none => styleBlocksScan fuel rest
    | none => styleBlocksScan fuel rest

def styleBlocks (html : Str) : List Str := styleBlocksScan (html.length + 1) html

/-- First-match lookup `styles.match(/LIT\s*:\s*([^;]+)/i)?.[1]?.trim()`
for a literal declaration name (given lower-cased). -/
def declValueAt (lit : Str) (s : Str) : Option Str :=
  match ciPrefix lit s with
  | some (_, r1) =>
    let ws1 := r1.takeWhile isWS
    match r1.drop ws1.length with
    | c :: r2 =>
      if c == (':') then
        match valueAfterWs r2 (fun d => !(d == (';'))) with
        | some (_, v) => some v
        | none => none
      else none
    | [] => none
  | none => none

def findDecl (lit : Str) : Nat → Str → Option Str
  | 0, _ => none
  | _ + 1, [] => none
  | fuel + 1, c :: rest =>
    match declValueAt lit (c :: rest) with
    | some v => some v
    | none => findDecl lit fuel rest

def declOf (lit : Str) (styles : Str) : Option Str :=
  (findDecl lit (styles.length + 1) styles).map trimStr

/-- One attempt of `\b(h[1-6])\s*\{([^}]+)\}` (the boundary is checked by
the caller): returns (full match, tag as matched, styles group, rest). -/
def headingAt : Str → Option (Str × Str × Str × Str)
  | c1 :: c2 :: rest =>
    if asciiLower c1 == ('h') && (decide (('1') ≤ c2 ∧ c2 ≤ ('6'))) then
      let ws := rest.takeWhile isWS
      match rest.drop ws.length with
      | c3 :: r2 =>
        if c3 == ('\x7b') then
          let inner := r2.takeWhile (fun d => !(d == ('\x7d')))
          if inner.isEmpty then none
          else
            match r2.drop inner.length with
            | c4 :: r3 =>
              if c4 == ('\x7d') then
                some (c1 :: c2 :: ws ++ ('\x7b') :: inner ++ [('\x7d')],
                      [c1, c2], inner, r3)
              else none
            | [] => none
        else none
      | [] => none
    else none
  | _ => none

/-- All matches of the global heading regex, tracking the previous
character for the `\b` assertion. -/
def headingScan : Nat → Option Char → Str → List (Str × Str × Str)
  | 0, _, _ => []
  | _ + 1, _, [] => []
  | fuel + 1, prev, c :: rest =>
    let boundary := match prev with
      | none => true
      | some p => !(isWordChar p)
    match if boundary then headingAt (c :: rest) else none with
    | some (full, tag, styles, after) =>
      (full, tag, styles) :: headingScan fuel (some ('\x7d')) after
    | none => headingScan fuel (some c) rest

def headingMatches (s : Str) : List (Str × Str × Str) := headingScan (s.length + 1) none s

/-- One attempt of `\bbody\s*\{([^}]+)\}` (boundary checked by the
caller): returns (full match, styles group, rest). -/
def bodyAt (s : Str) : Option (Str × Str × Str) :=
  match ciPrefix [('b'), ('o'), ('d'), ('y')] s with
  | some (t, r1) =>
    let ws := r1.takeWhile isWS
    match r1.drop ws.length with
    | c3 :: r2 =>
      if c3 == ('\x7b') then
        let inner := r2.takeWhile (fun d => !(d == ('\x7d')))
        if inner.isEmpty then none
        else
          match r2.drop inner.length with
          | c4 :: r3 =>
            if c4 == ('\x7d') then
              some (t ++ ws ++ ('\x7b') :: inner ++ [('\x7d')], inner, r3)
            else none
          | [] => none
      else none
    | [] => none
  | none => none

def bodyScan : Nat → Option Char → Str → List (Str × Str)
  | 0, _, _ => []
  | _ + 1, _, [] => []
  | fuel + 1, prev, c :: rest =>
    let boundary := match prev with
      | none => true
      | some p => !(isWordChar p)
    match if boundary then bodyAt (c :: rest) else none with
    | some (full, styles, after) =>
      (full, styles) :: bodyScan fuel (some ('\x7d')) after
    | none => bodyScan fuel (some c) rest

def bodyMatches (s : Str) : List (Str × Str) := bodyScan (s.length + 1) none s

/-! ## Data model (types.ts) -/

/-- SourceInfo provenance record; `sourceType` keeps the source's literal
tags ("html" / "css"). Confidence is modelled as an exact rational. -/
structure SourceInfo where
  sourceType : String
  sourceUrl : Str
  sampleSnippet : Str
  confidence : ℚ
deriving DecidableEq, Repr

inductive ColorFormat
  | hex | rgb | rgba | hsl | hsla | named
deriving DecidableEq, Repr

inductive ColorUsage
  | background | foreground | primary | secondary | accent | border | unknown
deriving DecidableEq, Repr

structure ColorToken where
  name : Str
  value : Str
  format : ColorFormat
  usage : ColorUsage
  source : SourceInfo
deriving DecidableEq, Repr

structure HeadingEntry where
  tag : Str
  fontSize : Option Str
  fontWeight : Option Str
  lineHeight : Option Str
  fontFamily : Option Str
  source : SourceInfo
deriving DecidableEq, Repr

structure BodyTextEntry where
  fontSize : Option Str
  lineHeight : Option Str
  fontFamily : Option Str
  source : SourceInfo
deriving DecidableEq, Repr

structure ExtractedValue where
  value : Str
  sourceType : String
  sourceUrl : Str
  sampleSnippet : Str
  confidence : ℚ
deriving DecidableEq, Repr

structure TypographyScale where
  headings : List HeadingEntry
  bodyText : Option BodyTextEntry
  fontFamilies : List ExtractedValue
deriving DecidableEq, Repr

/-- CrawledPage as assembled by `crawl` (the `headers` literal `{}` and the
wall-clock `crawledAt` timestamp are not modelled). -/
structure CrawledPage where
  url : Str
  finalUrl : Str
  status : Nat
  htmlSnippet : Str
  fullHtml : Str
  cssLinks : List Str
  jsLinks : List Str
  internalLinks : List Str
  error : Option Str
deriving DecidableEq, Repr

/-- CrawlSession; `cssContents` is the insertion-ordered `Map` from
stylesheet URL to fetched text (the wall-clock `crawlDuration` is not
modelled). -/
structure CrawlSession where
  startUrl : Str
  pages : List CrawledPage
  cssContents : List (Str × Str)
  robotsTxtStatus : String
  robotsTxtWarning : Option Str
  totalRequests : Nat
  failedRequests : Nat
deriving DecidableEq, Repr

structure ComponentPattern where
  name : String
  type : String
  classPatterns : List Str
  hasHoverState : Bool
  hasFocusState : Bool
  hasActiveState : Bool
  source : SourceInfo
deriving DecidableEq, Repr

structure AccessibilitySignal where
  feature : String
  present : Bool
  details : Option Str
  source : SourceInfo
deriving DecidableEq, Repr

/-! ## Color extraction (extract.ts lines 201-288) -/

/-- `getColorFormat`: case-sensitive `startsWith` checks in source order. -/
def getColorFormat (v : Str) : ColorFormat :=
  if [('#')].isPrefixOf v then ColorFormat.hex
  else if [('r'), ('g'), ('b'), ('a')].isPrefixOf v then ColorFormat.rgba
  else if [('r'), ('g'), ('b')].isPrefixOf v then ColorFormat.rgb
  else if [('h'), ('s'), ('l'), ('a')].isPrefixOf v then ColorFormat.hsla
  else if [('h'), ('s'), ('l')].isPrefixOf v then ColorFormat.hsl
  else ColorFormat.named

/-- `inferColorUsage`: ordered keyword tests over the lower-cased name,
first match wins (each regex
`/background|bg/i`, `/foreground|fg|text/i`, ... is a plain
alternation of literals, hence a disjunction of substring tests). -/
def inferColorUsage (name : Str) : ColorUsage :=
  let lowerName := lowerStr name
  if containsSub (("background").toList) lowerName
     || containsSub (("bg").toList) lowerName then ColorUsage.background
  else if containsSub (("foreground").toList) lowerName
     || containsSub (("fg").toList) lowerName
     || containsSub (("text").toList) lowerName then ColorUsage.foreground
  else if containsSub (("primary").toList) lowerName then ColorUsage.primary
  else if containsSub (("secondary").toList) lowerName then ColorUsage.secondary
  else if containsSub (("accent").toList) lowerName then ColorUsage.accent
  else if containsSub (("border").toList) lowerName then ColorUsage.border
  else ColorUsage.unknown

/-- One loop iteration of `extractColors` over a `CSS_VAR_REGEX` match:
the `COLOR_REGEX.test` call reads the module-level regex's `lastIndex`
(carried in the state), the source then resets `lastIndex` to 0 and
`exec`s from the start of the value. -/
def extractColorsStep (url : Str) (st : List ColorToken × Nat) (m : Str × Str × Str) :
    List ColorToken × Nat :=
  let (acc, lastIdx) := st
  let (full, name, value) := m
  let trimmedValue := trimStr value
  let t := colorTest trimmedValue lastIdx
  if t.1 then
    match colorSearchFrom trimmedValue 0 with
    | some (colorValue, e) =>
      let acc' :=
        if acc.any (fun tok => tok.value == colorValue) then acc
        else acc ++ [{ name := ('-') :: ('-') :: name
                       value := colorValue
                       format := getColorFormat colorValue
                       usage := inferColorUsage name
                       source := { sourceType := "css"
                                   sourceUrl := url
                                   sampleSnippet := full.take 80
                                   confidence := 85/100 } }]
      (acc', e)
    | none => (acc, 0)
  else (acc, t.2)

/-- `extractColors` with the module-level `COLOR_REGEX.lastIndex` made
explicit: takes the value the previous call left behind, returns the
tokens and the value this call leaves behind. -/
def extractColorsSt (css : Str) (sourceUrl : Str) (lastIdx : Nat) :
    List ColorToken × Nat :=
  (cssVarMatches css).foldl (extractColorsStep sourceUrl) ([], lastIdx)

/-- `extractColors` run with a fresh module state (`lastIndex = 0`), the
state a first call observes. -/
def extractColors (css : Str) (sourceUrl : Str) : List ColorToken :=
  (extractColorsSt css sourceUrl 0).1

/-- A sequence of `extractColors` calls as they actually execute in one
process: the module-level `COLOR_REGEX.lastIndex` threads from call to
call, starting at 0. Returns the result of each call. -/
def extractColorsRun (calls : List (Str × Str)) : List (List ColorToken) :=
  (calls.foldl
    (fun st call =>
      let r := extractColorsSt call.1 call.2 st.2
      (st.1 ++ [r.1], r.2))
    (([] : List (List ColorToken)), 0)).1

/-! ## Typography scale extraction (extract.ts lines 416-494) -/

/-- One attempt of `FONT_FAMILY_REGEX = font-family\s*:\s*([^;}\n]+)` (the
`i` flag handled by `ciPrefix`); returns (full match, value group, rest). -/
def fontFamilyAt (s : Str) : Option (Str × Str × Str) :=
  match ciPrefix (("font-family").toList) s with
  | some (t, r1) =>
    let ws1 := r1.takeWhile isWS
    match r1.drop ws1.length with
    | c :: r2 =>
      if c == (':') then
        match valueAfterWs r2 isVarValChar with
        | some (j, value) =>
          some (t ++ ws1 ++ (':') :: r2.take j ++ value, value, r2.drop (j + value.length))
        | none => none
      else none
    | [] => none
  | none => none

def fontFamilyScan : Nat → Str → List (Str × Str)
  | 0, _ => []
  | _ + 1, [] => []
  | fuel + 1, c :: rest =>
    match fontFamilyAt (c :: rest) with
    | some (full, value, after) => (full, value) :: fontFamilyScan fuel after
    | none => fontFamilyScan fuel rest

def fontFamilyMatches (s : Str) : List (Str × Str) := fontFamilyScan (s.length + 1) s

/-- The combined CSS corpus `extractTypographyScale` scans: every inline
`<style>` block of every page, then every fetched stylesheet, joined with
newlines. -/
def typographyCorpus (session : CrawlSession) : Str :=
  joinNL ((session.pages.flatMap (fun p => styleBlocks p.fullHtml)) ++
          session.cssContents.map (fun e => e.2))

def mkHeadingEntry (startUrl : Str) (m : Str × Str × Str) : HeadingEntry :=
  { tag := lowerStr m.2.1
    fontSize := declOf (("font-size").toList) m.2.2
    fontWeight := declOf (("font-weight").toList) m.2.2
    lineHeight := declOf (("line-height").toList) m.2.2
    fontFamily := declOf (("font-family").toList) m.2.2
    source := { sourceType := "css"
                sourceUrl := startUrl
                sampleSnippet := m.1.take 100
                confidence := 8/10 } }

def mkBodyTextEntry (startUrl : Str) (m : Str × Str) : BodyTextEntry :=
  { fontSize := declOf (("font-size").toList) m.2
    lineHeight := declOf (("line-height").toList) m.2
    fontFamily := declOf (("font-family").toList) m.2
    source := { sourceType := "css"
                sourceUrl := startUrl
                sampleSnippet := m.1.take 100
                confidence := 8/10 } }

/-- `extractTypographyScale`: headings are appended per match in scan
order; the single body-text record is overwritten by every later `body`
match; font families are collected first-occurrence-per-value. -/
def extractTypographyScale (session : CrawlSession) : TypographyScale :=
  let allCSS := typographyCorpus session
  let headings := (headingMatches allCSS).foldl
    (fun acc m => acc ++ [mkHeadingEntry session.startUrl m]) []
  let fontFamilies := ((fontFamilyMatches allCSS).foldl
    (fun st m =>
      let value := trimStr m.2
      if st.2.contains value then st
      else (st.1 ++ [{ value := value
                       sourceType := "css"
                       sourceUrl := session.startUrl
                       sampleSnippet := m.1.take 80
                       confidence := 75/100 : ExtractedValue }], st.2 ++ [value]))
    (([] : List ExtractedValue), ([] : List Str))).1
  let bodyText := (bodyMatches allCSS).foldl
    (fun _ m => some (mkBodyTextEntry session.startUrl m)) none
  { headings := headings, bodyText := bodyText, fontFamilies := fontFamilies }

/-! ## Accessibility signals (extract.ts lines 612-702) -/

/-- Test a predicate at every suffix position of the input (unanchored
regex `test`). -/
def scanTestAux (p : Str → Bool) : Nat → Str → Bool
  | 0, _ => false
  | _ + 1, [] => p []
  | fuel + 1, c :: rest => p (c :: rest) || scanTestAux p fuel rest

def anyPos (p : Str → Bool) (s : Str) : Bool := scanTestAux p (s.length + 1) s

/-- Both continuations of an optional `[- ]?`. -/
def optSepRests (s : Str) : List Str :=
  match s with
  | c :: r => if c == ('-') || c == (' ') then [r, c :: r] else [c :: r]
  | [] => [[]]

/-- `skip[- ]?(?:to[- ]?)?(?:main|content|navigation)` at one position. -/
def skipLinkAtPos (s : Str) : Bool :=
  match ciPrefix (("skip").toList) s with
  | some (_, r1) =>
    (optSepRests r1).any fun r2 =>
      let tos := match ciPrefix (("to").toList) r2 with
        | some (_, r3) => optSepRests r3
        | none => []
      (tos ++ [r2]).any fun r4 =>
        (ciPrefix (("main").toList) r4).isSome ||
        (ciPrefix (("content").toList) r4).isSome ||
        (ciPrefix (("navigation").toList) r4).isSome
  | none => false

/-- `:focus[^}]*outline` at one position. -/
def focusOutlineAtPos (s : Str) : Bool :=
  match ciPrefix ((":focus").toList) s with
  | some (_, r1) =>
    containsSub (("outline").toList) (lowerStr (r1.takeWhile (fun d => !(d == ('\x7d')))))
  | none => false

/-- One attempt of `aria-[a-z]+=`; returns the rest after the match. -/
def ariaAt (s : Str) : Option Str :=
  match ciPrefix (("aria-").toList) s with
  | some (_, r1) =>
    let letters := r1.takeWhile isAsciiAlpha
    if letters.isEmpty then none
    else
      match r1.drop letters.length with
      | c :: r2 => if c == ('=') then some r2 else none
      | [] => none
  | none => none

/-- Count of the global matches of `aria-[a-z]+=`. -/
def ariaScan : Nat → Str → Nat
  | 0, _ => 0
  | _ + 1, [] => 0
  | fuel + 1, c :: rest =>
    match ariaAt (c :: rest) with
    | some after => ariaScan fuel after + 1
    | none => ariaScan fuel rest

def ariaCount (s : Str) : Nat := ariaScan (s.length + 1) s

/-- One attempt of `<img[^>]*>`; returns (match text, rest). -/
def imgAt (s : Str) : Option (Str × Str) :=
  match ciPrefix (("<img").toList) s with
  | some (t, r1) =>
    let attrs := r1.takeWhile (fun d => !(d == ('>')))
    match r1.drop attrs.length with
    | c :: r2 => if c == ('>') then some (t ++ attrs ++ [('>')], r2) else none
    | [] => none
  | none => none

def imgScan : Nat → Str → List Str
  | 0, _ => []
  | _ + 1, [] => []
  | fuel + 1, c :: rest =>
    match imgAt (c :: rest) with
    | some (t, after) => t :: imgScan fuel after
    | none => imgScan fuel rest

/-- `allHTML.match(/<img[^>]*>/gi) || []`. -/
def imgTags (s : Str) : List Str := imgScan (s.length + 1) s

/-- `<TAG[\s>]` semantic-landmark test. -/
def landmarkTest (tag : String) (s : Str) : Bool :=
  anyPos
    (fun r =>
      match ciPrefix (("<").toList ++ tag.toList) r with
      | some (_, r1) =>
        match r1 with
        | c :: _ => isWS c || c == ('>')
        | [] => false
      | none => false)
    s

/-- The HTML corpus the accessibility detector scans. -/
def a11yHTML (session : CrawlSession) : Str :=
  joinNL (session.pages.map (fun p => p.fullHtml))

/-- The CSS corpus the accessibility detector scans. -/
def a11yCSS (session : CrawlSession) : Str :=
  joinNL (session.cssContents.map (fun e => e.2))

/-- The alt-text coverage of the session's combined markup: 1 when there
are no `<img>` tags. -/
def altCoverage (session : CrawlSession) : ℚ :=
  let tags := imgTags (a11yHTML session)
  let withAlt := (tags.filter (fun t => containsSub (("alt=").toList) (lowerStr t))).length
  if tags.length > 0 then (withAlt : ℚ) / (tags.length : ℚ) else 1

/-- `detectAccessibilitySignals`: the fixed battery of five checks, each
always emitted. -/
def detectAccessibilitySignals (session : CrawlSession) : List AccessibilitySignal :=
  let allHTML := a11yHTML session
  let allCSS := a11yCSS session
  let hasSkipLink := anyPos skipLinkAtPos allHTML
  let skipSig : AccessibilitySignal :=
    { feature := "Skip Links"
      present := hasSkipLink
      details := if hasSkipLink then some (("Skip navigation link detected").toList) else none
      source := { sourceType := "html", sourceUrl := session.startUrl
                  sampleSnippet := ("skip-to-content pattern").toList
                  confidence := if hasSkipLink then 9/10 else 5/10 } }
  let hasFocusVisible := containsSub ((":focus-visible").toList) (lowerStr allCSS)
  let hasFocusOutline := anyPos focusOutlineAtPos allCSS
  let focusSig : AccessibilitySignal :=
    { feature := "Focus Visible Styling"
      present := hasFocusVisible || hasFocusOutline
      details :=
        if hasFocusVisible then some (("Uses :focus-visible pseudo-class").toList)
        else if hasFocusOutline then some (("Custom focus outline styling").toList)
        else none
      source := { sourceType := "css", sourceUrl := session.startUrl
                  sampleSnippet := (":focus-visible or :focus outline").toList
                  confidence :=
                    if hasFocusVisible then 9/10
                    else if hasFocusOutline then 7/10 else 4/10 } }
  let aria := ariaCount allHTML
  let ariaSig : AccessibilitySignal :=
    { feature := "ARIA Attributes"
      present := aria > 5
      details := some ((("Found ").toList) ++ natToStr aria ++ ((" ARIA attributes").toList))
      source := { sourceType := "html", sourceUrl := session.startUrl
                  sampleSnippet := natToStr aria ++ ((" aria-* attributes").toList)
                  confidence := if aria > 20 then 9/10 else if aria > 5 then 7/10 else 4/10 } }
  let tags := imgTags allHTML
  let withAlt := (tags.filter (fun t => containsSub (("alt=").toList) (lowerStr t))).length
  let coverage := altCoverage session
  let altSig : AccessibilitySignal :=
    { feature := "Image Alt Text"
      present := coverage > 8/10
      details := some (natToStr withAlt ++ [('/')] ++ natToStr tags.length ++
        ((" images have alt text (").toList) ++ natToStr (roundQ (coverage * 100)) ++
        (("%)").toList))
      source := { sourceType := "html", sourceUrl := session.startUrl
                  sampleSnippet := ("img alt attribute coverage").toList
                  confidence := if coverage > 9/10 then 9/10
                                else if coverage > 7/10 then 7/10 else 5/10 } }
  let semanticCount :=
    ([landmarkTest "nav" allHTML, landmarkTest "main" allHTML,
      landmarkTest "header" allHTML, landmarkTest "footer" allHTML].filter id).length
  let semanticSig : AccessibilitySignal :=
    { feature := "Semantic HTML"
      present := semanticCount ≥ 3
      details := some ((("Uses ").toList) ++ natToStr semanticCount ++
        (("/4 semantic landmarks (nav, main, header, footer)").toList))
      source := { sourceType := "html", sourceUrl := session.startUrl
                  sampleSnippet := ("semantic HTML elements").toList
                  confidence := if semanticCount ≥ 3 then 85/100
                                else if semanticCount ≥ 2 then 6/10 else 4/10 } }
  [skipSig, focusSig, ariaSig, altSig, semanticSig]

/-! ## Component pattern detection (extract.ts lines 500-606) -/

/-- One attempt of `\.LIT[^{]*\{` (case-insensitive); the literal is given
lower-cased with its leading dot. Returns (match text, rest). -/
def classBraceAt (lit : Str) (s : Str) : Option (Str × Str) :=
  match ciPrefix lit s with
  | some (t, r1) =>
    let mid := r1.takeWhile (fun d => !(d == ('\x7b')))
    match r1.drop mid.length with
    | c :: r2 => if c == ('\x7b') then some (t ++ mid ++ [('\x7b')], r2) else none
    | [] => none
  | none => none

/-- One attempt of a plain literal pattern (case-insensitive). -/
def literalAt (lit : Str) (s : Str) : Option (Str × Str) :=
  match ciPrefix lit s with
  | some (t, r) => some (t, r)
  | none => none

/-- All matches of one global component regex. -/
def patScan (m : Str → Option (Str × Str)) : Nat → Str → List Str
  | 0, _ => []
  | _ + 1, [] => []
  | fuel + 1, c :: rest =>
    match m (c :: rest) with
    | some (t, after) => t :: patScan m fuel after
    | none => patScan m fuel rest

def patMatches (m : Str → Option (Str × Str)) (s : Str) : List Str :=
  patScan m (s.length + 1) s

/-- `match[0].replace(/\{$/, '').trim()`. -/
def stripBraceTrim (t : Str) : Str :=
  trimStr (if t.getLast? == some ('\x7b') then t.dropLast else t)

/-- `.replace(/^\./, '')`. -/
def stripLeadingDot (t : Str) : Str :=
  match t with
  | c :: r => if c == ('.') then r else t
  | [] => []

/-- First-occurrence dedup (`[...new Set(l)]`). -/
def dedupStrs (l : List Str) : List Str := l.foldl addUniq []

/-- `new RegExp('\\.' + baseClass + '[^{]*' + state, 'i').test(allCSS)`. -/
def stateTest (baseClass : Str) (state : String) (allCSS : Str) : Bool :=
  anyPos
    (fun s =>
      match ciPrefix (('.') :: lowerStr baseClass) s with
      | some (_, r1) =>
        containsSub state.toList (lowerStr (r1.takeWhile (fun d => !(d == ('\x7b')))))
      | none => false)
    allCSS

/-- The fixed component table of `detectComponentPatterns`, with each
regex realised as a matcher. -/
def componentDetectors : List (String × List (Str → Option (Str × Str))) :=
  [("button", [classBraceAt ((".btn").toList), classBraceAt ((".button").toList),
               literalAt (("[class*=\"btn\"]").toList)]),
   ("card", [classBraceAt ((".card").toList), literalAt ((".card-body").toList),
             literalAt ((".card-header").toList)]),
   ("nav", [classBraceAt ((".nav").toList), classBraceAt ((".navbar").toList),
            classBraceAt ((".navigation").toList)]),
   ("hero", [classBraceAt ((".hero").toList), literalAt ((".hero-section").toList),
             classBraceAt ((".banner").toList)]),
   ("form", [classBraceAt ((".form").toList), literalAt ((".form-group").toList),
             literalAt ((".form-control").toList)]),
   ("input", [classBraceAt ((".input").toList), literalAt (("input[type").toList),
              literalAt ((".text-field").toList)]),
   ("modal", [classBraceAt ((".modal").toList), classBraceAt ((".dialog").toList),
              literalAt (("[role=\"dialog\"]").toList)])]

/-- `detectComponentPatterns`. The source computes `allHTML` but never
reads it; only the fetched external stylesheets are scanned. -/
def detectComponentPatterns (session : CrawlSession) : List ComponentPattern :=
  let _allHTML := joinNL (session.pages.map (fun p => p.fullHtml))
  let allCSS := joinNL (session.cssContents.map (fun e => e.2))
  componentDetectors.foldl
    (fun acc d =>
      let classPatterns := d.2.foldl
        (fun l m => l ++ (patMatches m allCSS).map stripBraceTrim) []
      match classPatterns with
      | [] => acc
      | first :: _ =>
        let baseClass := (stripLeadingDot first).takeWhile isVarNameChar
        acc ++ [{ name := d.1
                  type := d.1
                  classPatterns := (dedupStrs classPatterns).take 5
                  hasHoverState := stateTest baseClass ":hover" allCSS
                  hasFocusState := stateTest baseClass ":focus" allCSS
                  hasActiveState := stateTest baseClass ":active" allCSS
                  source := { sourceType := "css"
                              sourceUrl := session.startUrl
                              sampleSnippet := first
                              confidence := 7/10 } }])
    []

/-! ## Stack detection (extract.ts lines 29-195) -/

/-- Case-insensitive substring fingerprint (a regex that is a plain
literal under the `i` flag); the pattern is given lower-cased. -/
def ciContains (pat : String) (s : Str) : Bool := containsSub pat.toList (lowerStr s)

/-- A regex alternation of plain literals under the `i` flag. -/
def ciContainsAny (pats : List String) (s : Str) : Bool := pats.any (fun p => ciContains p s)

/-- Fingerprint of shape `LIT[cls]+` (case-insensitive): the literal
followed by at least one character of the class (class given on the
lower-cased character). -/
def followedByCls (pat : String) (cls : Char → Bool) (s : Str) : Bool :=
  anyPos
    (fun r =>
      match ciPrefix pat.toList r with
      | some (_, r1) =>
        match r1 with
        | c :: _ => cls (asciiLower c)
        | [] => false
      | none => false)
    s

def isLowerHex (c : Char) : Bool := isAsciiDigit c || decide (('a') ≤ c ∧ c ≤ ('f'))

def isLowerAlnum (c : Char) : Bool := isLowerAlpha c || isAsciiDigit c

/-- Boundary-aware position scan: the predicate sees the previous
character (none at the start of the string). -/
def scanBAux (p : Option Char → Str → Bool) : Nat → Option Char → Str → Bool
  | 0, _, _ => false
  | _ + 1, prev, [] => p prev []
  | fuel + 1, prev, c :: rest => p prev (c :: rest) || scanBAux p fuel (some c) rest

def scanB (p : Option Char → Str → Bool) (s : Str) : Bool :=
  scanBAux p (s.length + 1) none s

def noWordBefore : Option Char → Bool
  | none => true
  | some c => !(isWordChar c)

/-- `\bbtn-(?:primary|secondary|success|danger)`. -/
def btnClassTest (s : Str) : Bool :=
  scanB
    (fun prev r => noWordBefore prev &&
      (match ciPrefix (("btn-").toList) r with
       | some (_, r1) =>
         [("primary" : String), "secondary", "success", "danger"].any
           (fun a => (ciPrefix a.toList r1).isSome)
       | none => false))
    s

/-- `\bcn\s*\(`. -/
def cnCallTest (s : Str) : Bool :=
  scanB
    (fun prev r => noWordBefore prev &&
      (match ciPrefix (("cn").toList) r with
       | some (_, r1) => (r1.dropWhile isWS).head? == some ('(')
       | none => false))
    s

/-- `\b(?:sm:|md:|lg:|xl:|2xl:)[a-z]`. -/
def twBreakpointTest (s : Str) : Bool :=
  scanB
    (fun prev r => noWordBefore prev &&
      ([("sm:" : String), "md:", "lg:", "xl:", "2xl:"].any fun a =>
        match ciPrefix a.toList r with
        | some (_, r1) =>
          match r1 with
          | c :: _ => isLowerAlpha (asciiLower c)
          | [] => false
        | none => false))
    s

/-- Inner part `[^"]*(?:ALT)[^"]*"` of the class-attribute fingerprints:
some alternative occurs before the first quote and a closing quote follows
it. Input already lower-cased. -/
def innerScanQ (alts : List Str) : Nat → Str → Bool
  | 0, _ => false
  | _ + 1, [] => false
  | fuel + 1, c :: rest =>
    if c == ('"') then false
    else
      (alts.any fun a =>
        a.isPrefixOf (c :: rest) && ((c :: rest).drop a.length).contains ('"'))
      || innerScanQ alts fuel rest

/-- `\bclass="[^"]*(?:ALTS)[^"]*"` (case-insensitive). -/
def classAttrTest (alts : List String) (s : Str) : Bool :=
  let low := lowerStr s
  scanBAux
    (fun prev r => noWordBefore prev &&
      (if (("class=\"").toList).isPrefixOf r then
        innerScanQ (alts.map (fun a => a.toList)) (r.length + 1) (r.drop 7)
      else false))
    (low.length + 1) none low

structure Fingerprint where
  test : Str → Bool
  weight : ℚ
  descr : String

structure StackDetector where
  name : String
  category : String
  patterns : List Fingerprint

structure StackSignal where
  name : String
  category : String
  confidence : ℚ
  evidence : List String
  sourceUrls : List Str
deriving DecidableEq, Repr

/-- The fixed `STACK_DETECTORS` table, each regex realised as a tester. -/
def STACK_DETECTORS : List StackDetector :=
  [{ name := "Next.js", category := "framework", patterns :=
      [⟨ciContains "__next_data__", 9/10, "__NEXT_DATA__ script"⟩,
       ⟨ciContains "/_next/", 8/10, "/_next/ assets"⟩,
       ⟨ciContains "next/head", 7/10, "next/head import"⟩,
       ⟨ciContains "data-nscript", 6/10, "Next.js script attribute"⟩] },
   { name := "React", category := "framework", patterns :=
      [⟨ciContains "data-reactroot", 9/10, "data-reactroot attribute"⟩,
       ⟨ciContains "__react_devtools", 8/10, "React DevTools"⟩,
       ⟨ciContainsAny ["react.js", "react.min.js"], 7/10, "React bundle"⟩,
       ⟨ciContains "react-dom", 6/10, "react-dom reference"⟩] },
   { name := "Vue.js", category := "framework", patterns :=
      [⟨followedByCls "data-v-" isLowerHex, 9/10, "Vue scoped style attribute"⟩,
       ⟨ciContains "__vue__", 8/10, "__VUE__ global"⟩,
       ⟨ciContainsAny ["vue.js", "vue.min.js"], 7/10, "Vue bundle"⟩] },
   { name := "Nuxt", category := "framework", patterns :=
      [⟨ciContains "__nuxt__", 9/10, "__NUXT__ data"⟩,
       ⟨ciContains "/_nuxt/", 8/10, "/_nuxt/ assets"⟩] },
   { name := "Svelte", category := "framework", patterns :=
      [⟨followedByCls "svelte-" isLowerAlnum, 8/10, "Svelte class pattern"⟩,
       ⟨ciContains "__svelte", 9/10, "__svelte marker"⟩] },
   { name := "Tailwind CSS", category := "css-framework", patterns :=
      [⟨ciContains "tailwindcss", 9/10, "tailwindcss reference"⟩,
       ⟨followedByCls "--tw-" (fun c => isLowerAlpha c || c == ('-')), 85/100, "Tailwind CSS variable"⟩,
       ⟨classAttrTest ["bg-", "text-", "flex", "grid", "p-", "m-", "w-", "h-"], 6/10, "Tailwind utility classes"⟩,
       ⟨twBreakpointTest, 7/10, "Tailwind breakpoint prefix"⟩] },
   { name := "shadcn/ui", category := "ui-library", patterns :=
      [⟨ciContains "@radix-ui", 8/10, "@radix-ui import"⟩,
       ⟨cnCallTest, 6/10, "cn() utility function"⟩,
       ⟨ciContains "data-[state=", 7/10, "Radix state attribute"⟩,
       ⟨ciContains "class-variance-authority", 8/10, "CVA import"⟩] },
   { name := "Bootstrap", category := "css-framework", patterns :=
      [⟨ciContainsAny ["bootstrap.css", "bootstrap.min.css"], 9/10, "Bootstrap CSS"⟩,
       ⟨classAttrTest ["container", "row", "col-"], 7/10, "Bootstrap grid classes"⟩,
       ⟨btnClassTest, 8/10, "Bootstrap button classes"⟩] },
   { name := "Material UI", category := "ui-library", patterns :=
      [⟨ciContains "@mui/", 9/10, "@mui/ import"⟩,
       ⟨ciContainsAny ["muibutton", "muicard", "muitypography"], 8/10, "MUI component class"⟩,
       ⟨ciContains "__emotion", 5/10, "Emotion (MUI styling)"⟩] },
   { name := "Chakra UI", category := "ui-library", patterns :=
      [⟨ciContains "@chakra-ui", 9/10, "@chakra-ui import"⟩,
       ⟨ciContains "chakra-", 7/10, "Chakra class prefix"⟩] },
   { name := "Vite", category := "build-tool", patterns :=
      [⟨ciContains "@vite", 8/10, "@vite reference"⟩,
       ⟨ciContains "vite.config", 9/10, "Vite config"⟩] },
   { name := "Webpack", category := "build-tool", patterns :=
      [⟨ciContains "webpackjsonp", 8/10, "Webpack runtime"⟩,
       ⟨ciContains "__webpack_require__", 9/10, "Webpack require"⟩] }]

/-- The combined corpus `detectStack` scans: every page's markup then
every fetched stylesheet, joined with newlines. -/
def stackCorpus (session : CrawlSession) : Str :=
  joinNL (session.pages.map (fun p => p.fullHtml) ++ session.cssContents.map (fun e => e.2))

def matchedPatterns (session : CrawlSession) (d : StackDetector) : List Fingerprint :=
  d.patterns.filter (fun p => p.test (stackCorpus session))

/-- Per-fingerprint source URLs: the pages and stylesheets where the
fingerprint independently matches, in insertion-ordered-set order. -/
def signalSourceUrls (session : CrawlSession) (matched : List Fingerprint) : List Str :=
  matched.foldl
    (fun us p =>
      session.cssContents.foldl
        (fun us2 e => if p.test e.2 then addUniq us2 e.1 else us2)
        (session.pages.foldl
          (fun us1 pg => if p.test pg.fullHtml then addUniq us1 pg.finalUrl else us1)
          us))
    []

def maxMatchedWeight (matched : List Fingerprint) : ℚ :=
  matched.foldl (fun m p => max m p.weight) 0

def mkStackSignal (session : CrawlSession) (d : StackDetector) : StackSignal :=
  let matched := matchedPatterns session d
  { name := d.name
    category := d.category
    confidence :=
      min (maxMatchedWeight matched + min ((1/10) * ((matched.length : ℚ) - 1)) (3/20)) 1
    evidence := matched.map (fun p => p.descr)
    sourceUrls := signalSourceUrls session matched }

/-- JS `Map.set` keyed by the detector name, values kept in insertion
order. -/
def setByName (l : List StackSignal) (s : StackSignal) : List StackSignal :=
  if l.any (fun t => t.name == s.name) then l.map (fun t => if t.name == s.name then s else t)
  else l ++ [s]

def signalsUnsorted (session : CrawlSession) : List StackSignal :=
  STACK_DETECTORS.foldl
    (fun acc d =>
      if (matchedPatterns session d).isEmpty then acc
      else setByName acc (mkStackSignal session d))
    []

/-- Descending-confidence order used by the final `sort`. -/
def confGe (a b : StackSignal) : Prop := b.confidence ≤ a.confidence

instance : DecidableRel confGe := fun a b => inferInstanceAs (Decidable (b.confidence ≤ a.confidence))

instance : IsTotal StackSignal confGe := ⟨fun a b => le_total b.confidence a.confidence⟩

instance : IsTrans StackSignal confGe := ⟨fun _ _ _ h1 h2 => le_trans h2 h1⟩

/-- `detectStack`: JS `Array.sort` with comparator
`(a, b) => b.confidence - a.confidence` is a stable sort (ES2019), i.e. a
stable sort by non-increasing confidence — insertion sort under `confGe`. -/
def detectStack (session : CrawlSession) : List StackSignal :=
  List.insertionSort confGe (signalsUnsorted session)

/-! ## HTTP fetch gateway with retry (crawler.ts lines 191-231) -/

/-- Outcome of one raw network attempt: a completed response with its
status, or the call itself raising. -/
inductive AttemptResult
  | ok (status : Nat)
  | raise (msg : Str)
deriving DecidableEq, Repr

/-- Observable trace of one `fetchWithRetry` run: the final outcome
(`Except.error` models the `throw`, carrying the last caught error or
`none` for the fallback `Error`), the number of `fetch` calls made, and
the backoff delays slept in order. -/
inductive RetryOutcome
  | success (status : Nat)
  | thrown (lastErr : Option Str)
deriving DecidableEq, Repr

structure RetryTrace where
  outcome : RetryOutcome
  calls : Nat
  delays : List Nat
deriving DecidableEq, Repr

/-- The `for (let attempt = 0; attempt < maxRetries; attempt++)` loop,
structurally recursive on the remaining iterations
(`remaining = maxRetries - attempt`). A 429/5xx response sleeps
`initialDelay * 2^attempt` and continues (even on the last iteration); a
raised error is caught and sleeps only when another attempt follows; any
other completed response returns immediately. -/
def retryGo (oracle : Nat → AttemptResult) (initialDelay : Nat) :
    Nat → Nat → Option Str → RetryTrace
  | 0, _, lastErr => { outcome := RetryOutcome.thrown lastErr, calls := 0, delays := [] }
  | remaining + 1, attempt, lastErr =>
    match oracle attempt with
    | AttemptResult.ok s =>
      if (s == 429) || (decide (500 ≤ s)) then
        let rest := retryGo oracle initialDelay remaining (attempt + 1) lastErr
        { outcome := rest.outcome
          calls := rest.calls + 1
          delays := initialDelay * 2 ^ attempt :: rest.delays }
      else { outcome := RetryOutcome.success s, calls := 1, delays := [] }
    | AttemptResult.raise msg =>
      let rest := retryGo oracle initialDelay remaining (attempt + 1) (some msg)
      { outcome := rest.outcome
        calls := rest.calls + 1
        delays :=
          if remaining == 0 then rest.delays
          else initialDelay * 2 ^ attempt :: rest.delays }

def fetchWithRetry (oracle : Nat → AttemptResult) (maxRetries initialDelay : Nat) : RetryTrace :=
  retryGo oracle initialDelay maxRetries 0 none

/-! ## Robots advisory checker (crawler.ts lines 132-181) -/

/-- Outcome of the robots.txt fetch: the call raised, or a response with
its `ok` flag and body text. -/
inductive RobotsNet
  | err (msg : Str)
  | resp (ok : Bool) (text : Str)
deriving DecidableEq, Repr

/-- The per-line interpretation loop: `user-agent:` lines toggle the
block flag, a root `disallow:` inside an active block returns "blocked"
immediately. -/
def robotsScanLines : List Str → Bool → Bool × Option Str
  | [], _ => (true, none)
  | line :: rest, inBlock =>
    let trimmed := lowerStr (trimStr line)
    if (("user-agent:").toList).isPrefixOf trimmed then
      let agent := trimStr (replaceFirst (("user-agent:").toList) [] trimmed)
      robotsScanLines rest (agent == ("*").toList || containsSub (("bot").toList) agent)
    else if inBlock && (("disallow:").toList).isPrefixOf trimmed then
      let path := trimStr (replaceFirst (("disallow:").toList) [] trimmed)
      if path == ("/").toList || path == ("/*").toList then
        (false, some ((("robots.txt disallows crawling: ").toList) ++ path))
      else robotsScanLines rest inBlock
    else robotsScanLines rest inBlock

/-- `checkRobotsTxt` as (allowed, warning): no origin means allowed with
no fetch; a non-OK response means allowed with no warning; a raised fetch
means allowed with a warning; otherwise the body is interpreted. -/
def checkRobotsTxt (originOfBase : Option Str) (netR : RobotsNet) : Bool × Option Str :=
  match originOfBase with
  | none => (true, none)
  | some _ =>
    match netR with
    | RobotsNet.err msg => (true, some ((("Could not fetch robots.txt: ").toList) ++ msg))
    | RobotsNet.resp ok text =>
      if !ok then (true, none)
      else robotsScanLines (splitOnChar ('\n') text) false

/-! ## Crawler orchestrator (crawler.ts lines 237-398) -/

/-- Abstraction of `fetchPage`'s network-dependent result (the source's
`fetchPage` echoes its argument into the `url` field on every path, so the
oracle omits it). -/
structure PageOutcome where
  finalUrl : Str
  status : Nat
  html : Str
  cssLinks : List Str
  jsLinks : List Str
  internalLinks : List Str
  error : Option Str
deriving DecidableEq, Repr

/-- The network- and URL-parsing collaborators of the crawl loop. -/
structure NetOracle where
  normalizeUrl : Str → Option Str
  isSameOrigin : Str → Str → Bool
  fetchPage : Str → PageOutcome
  fetchCSS : Str → Option Str

/-- The crawl-relevant configuration fields (`mode` and `notes` are
unread by `crawl`). -/
structure ExtractorConfig where
  themeUrl : Str
  maxPages : Nat
  sameOriginOnly : Bool
  includeAssets : Bool
deriving DecidableEq, Repr

structure CrawlState where
  queue : List Str
  visited : List Str
  pages : List CrawledPage
  allCssLinks : List Str
  totalRequests : Nat
  failedRequests : Nat
deriving DecidableEq, Repr

/-- The BFS page loop `while (queue.length > 0 && pages.length <
config.maxPages)`: pop, normalize, skip already-visited, mark visited,
skip cross-origin when configured, otherwise fetch, record the page (also
on failure), merge stylesheet links, and enqueue unvisited internal
links. -/
def crawlLoop (net : NetOracle) (cfg : ExtractorConfig) (st : CrawlState) : CrawlState :=
  match h : st.queue with
  | [] => st
  | url :: rest =>
    if hp : st.pages.length < cfg.maxPages then
      match net.normalizeUrl url with
      | none => crawlLoop net cfg { st with queue := rest }
      | some nu =>
        if st.visited.contains nu then crawlLoop net cfg { st with queue := rest }
        else
          let visited' := st.visited ++ [nu]
          if cfg.sameOriginOnly && !(net.isSameOrigin nu cfg.themeUrl) then
            crawlLoop net cfg { st with queue := rest, visited := visited' }
          else
            let r := net.fetchPage nu
            let page : CrawledPage :=
              { url := nu, finalUrl := r.finalUrl, status := r.status
                htmlSnippet := r.html.take 2000, fullHtml := r.html
                cssLinks := r.cssLinks, jsLinks := r.jsLinks
                internalLinks := r.internalLinks, error := r.error }
            crawlLoop net cfg
              { queue := rest ++ r.internalLinks.filter (fun l => !(visited'.contains l))
                visited := visited'
                pages := st.pages ++ [page]
                allCssLinks := r.cssLinks.foldl addUniq st.allCssLinks
                totalRequests := st.totalRequests + 1
                failedRequests := st.failedRequests + (if r.error.isSome then 1 else 0) }
    else st
termination_by (cfg.maxPages - st.pages.length, st.queue.length)
decreasing_by
  all_goals simp_wf
  all_goals first
    | exact Prod.Lex.right _ (by rw [h]; simp only [List.length_cons]; omega)
    | exact Prod.Lex.left _ _ (by omega)

/-- The optional second pass `for (const cssUrl of allCssLinks)`: every
fetch counts as a request; a failed stylesheet is dropped from the map and
counts as a failed request. -/
def assetPass (net : NetOracle) : List Str → List (Str × Str) × Nat × Nat → List (Str × Str) × Nat × Nat
  | [], acc => acc
  | u :: rest, (cssC, total, failed) =>
    match net.fetchCSS u with
    | some css => assetPass net rest (cssC ++ [(u, css)], total + 1, failed)
    | none => assetPass net rest (cssC, total + 1, failed + 1)

def initCrawlState (cfg : ExtractorConfig) : CrawlState :=
  { queue := [cfg.themeUrl], visited := [], pages := [], allCssLinks := []
    totalRequests := 0, failedRequests := 0 }

def crawlFinal (net : NetOracle) (cfg : ExtractorConfig) : CrawlState :=
  crawlLoop net cfg (initCrawlState cfg)

/-- `crawl`: robots advisory check (outcome only recorded), BFS page
pass, optional stylesheet pass, session assembly. -/
def crawl (net : NetOracle) (robotsOrigin : Option Str) (robotsNet : RobotsNet)
    (cfg : ExtractorConfig) : CrawlSession :=
  let robotsCheck := checkRobotsTxt robotsOrigin robotsNet
  let fin := crawlFinal net cfg
  let assets :=
    if cfg.includeAssets then assetPass net fin.allCssLinks ([], fin.totalRequests, fin.failedRequests)
    else ([], fin.totalRequests, fin.failedRequests)
  { startUrl := cfg.themeUrl
    pages := fin.pages
    cssContents := assets.1
    robotsTxtStatus := if robotsCheck.1 then "allowed" else "blocked"
    robotsTxtWarning := robotsCheck.2
    totalRequests := assets.2.1
    failedRequests := assets.2.2 }

/-! ## Concrete example data used by scenario proofs and witnesses -/

/-- A page outcome with no links and no content. -/
def emptyPageOutcome : PageOutcome :=
  { finalUrl := ("https://e.com/").toList, status := 200, html := []
    cssLinks := [], jsLinks := [], internalLinks := [], error := none }

/-- A trivial network oracle: every URL normalizes to itself, everything
is same-origin, pages are empty, stylesheet fetches fail. -/
def netW : NetOracle :=
  { normalizeUrl := fun u => some u
    isSameOrigin := fun _ _ => true
    fetchPage := fun _ => emptyPageOutcome
    fetchCSS := fun _ => none }

def cfgW : ExtractorConfig :=
  { themeUrl := ("https://e.com/").toList, maxPages := 3
    sameOriginOnly := true, includeAssets := false }

/-- A crawl whose one page references one stylesheet whose fetch fails. -/
def netC2 : NetOracle :=
  { normalizeUrl := fun u => some u
    isSameOrigin := fun _ _ => true
    fetchPage := fun _ =>
      { finalUrl := ("https://e.com/").toList, status := 200, html := []
        cssLinks := [("https://e.com/s.css").toList], jsLinks := []
        internalLinks := [], error := none }
    fetchCSS := fun _ => none }

def cfgC2 : ExtractorConfig :=
  { themeUrl := ("https://e.com/").toList, maxPages := 1
    sameOriginOnly := true, includeAssets := true }

def sessC2 : CrawlSession :=
  crawl netC2 (some (("https://e.com").toList)) (RobotsNet.resp true []) cfgC2

/-- Markup carrying both Next.js fingerprints of the C5 scenario. -/
def pgStack : CrawledPage :=
  { url := ("https://e.com/").toList, finalUrl := ("https://e.com/").toList
    status := 200, htmlSnippet := []
    fullHtml := ("<script id=__NEXT_DATA__></script><script src=/_next/static/chunk.js></script>").toList
    cssLinks := [], jsLinks := [], internalLinks := [], error := none }

def sessStack : CrawlSession :=
  { startUrl := ("https://e.com/").toList, pages := [pgStack], cssContents := []
    robotsTxtStatus := "allowed", robotsTxtWarning := none
    totalRequests := 1, failedRequests := 0 }

def cssC6 : Str := (":root\x7b--color-primary-bg:#102030;\x7d").toList

def urlC6 : Str := ("https://e.com/a.css").toList

def cssC7a : Str := ("--x: #102030;").toList

def cssC7b : Str := ("--y: #abc;").toList

/-- A session whose inline styles declare `h1` twice and `body` twice. -/
def pgTypo : CrawledPage :=
  { url := ("https://e.com/").toList, finalUrl := ("https://e.com/").toList
    status := 200, htmlSnippet := []
    fullHtml := ("<style>h1\x7bfont-size:30px\x7dh1\x7bfont-size:28px\x7dbody\x7bfont-size:16px\x7dbody\x7bfont-size:14px\x7d</style>").toList
    cssLinks := [], jsLinks := [], internalLinks := [], error := none }

def sessTypo : CrawlSession :=
  { startUrl := ("https://e.com/").toList, pages := [pgTypo], cssContents := []
    robotsTxtStatus := "allowed", robotsTxtWarning := none
    totalRequests := 1, failedRequests := 0 }

/-- A session whose markup has four `<img>` tags, three of them with
`alt`. -/
def pgAlt : CrawledPage :=
  { url := ("https://e.com/").toList, finalUrl := ("https://e.com/").toList
    status := 200, htmlSnippet := []
    fullHtml := ("<img src=a.png alt=one><img src=b.png alt=two><img src=c.png alt=three><img src=d.png>").toList
    cssLinks := [], jsLinks := [], internalLinks := [], error := none }

def sessAlt : CrawlSession :=
  { startUrl := ("https://e.com/").toList, pages := [pgAlt], cssContents := []
    robotsTxtStatus := "allowed", robotsTxtWarning := none
    totalRequests := 1, failedRequests := 0 }

/-- A session whose pages hold component-like CSS only inline, with no
fetched stylesheet. -/
def pgC10 : CrawledPage :=
  { url := ("https://e.com/").toList, finalUrl := ("https://e.com/").toList
    status := 200, htmlSnippet := []
    fullHtml := ("<style>.btn\x7bcolor:red\x7d.card\x7bcolor:blue\x7d.modal\x7bcolor:green\x7d</style>").toList
    cssLinks := [], jsLinks := [], internalLinks := [], error := none }

def sessC10 : CrawlSession :=
  { startUrl := ("https://e.com/").toList, pages := [pgC10], cssContents := []
    robotsTxtStatus := "allowed", robotsTxtWarning := none
    totalRequests := 1, failedRequests := 0 }

/-- The retry oracle of the C4 witness: the first attempt raises, the
second completes with a plain 404. -/
def oracleC4 : Nat → AttemptResult :=
  fun k => if k == 0 then AttemptResult.raise (("boom").toList) else AttemptResult.ok 404

/-- Whether attempt `j` is one the gateway retries past: a 429/5xx
response or a raised call. -/
def retriableAttempt (oracle : Nat → AttemptResult) (j : Nat) : Bool :=
  match oracle j with
  | AttemptResult.ok s => (s == 429) || (decide (500 ≤ s))
  | AttemptResult.raise _ => true

/-! ## Theorems. First, unfolding lemmas for the crawl loop -/

theorem crawlLoop_nil (net : NetOracle) (cfg : ExtractorConfig) (st : CrawlState)
    (h : st.queue = []) : crawlLoop net cfg st = st := by
  rw [crawlLoop.eq_def, h]

theorem crawlLoop_full (net : NetOracle) (cfg : ExtractorConfig) (st : CrawlState)
    (url : Str) (rest : List Str) (hq : st.queue = url :: rest)
    (hp : ¬ st.pages.length < cfg.maxPages) : crawlLoop net cfg st = st := by
  rw [crawlLoop.eq_def, hq]
  simp only [dif_neg hp]

theorem crawlLoop_badUrl (net : NetOracle) (cfg : ExtractorConfig) (st : CrawlState)
    (url : Str) (rest : List Str) (hq : st.queue = url :: rest)
    (hp : st.pages.length < cfg.maxPages) (hn : net.normalizeUrl url = none) :
    crawlLoop net cfg st = crawlLoop net cfg { st with queue := rest } := by
  rw [crawlLoop.eq_def, hq]
  simp only [dif_pos hp, hn]

theorem crawlLoop_visited (net : NetOracle) (cfg : ExtractorConfig) (st : CrawlState)
    (url nu : Str) (rest : List Str) (hq : st.queue = url :: rest)
    (hp : st.pages.length < cfg.maxPages) (hn : net.normalizeUrl url = some nu)
    (hv : st.visited.contains nu = true) :
    crawlLoop net cfg st = crawlLoop net cfg { st with queue := rest } := by
  rw [crawlLoop.eq_def, hq]
  simp only [dif_pos hp, hn, hv, if_true]

theorem crawlLoop_crossOrigin (net : NetOracle) (cfg : ExtractorConfig) (st : CrawlState)
    (url nu : Str) (rest : List Str) (hq : st.queue = url :: rest)
    (hp : st.pages.length < cfg.maxPages) (hn : net.normalizeUrl url = some nu)
    (hv : st.visited.contains nu = false)
    (ho : (cfg.sameOriginOnly && !(net.isSameOrigin nu cfg.themeUrl)) = true) :
    crawlLoop net cfg st =
      crawlLoop net cfg { st with queue := rest, visited := st.visited ++ [nu] } := by
  rw [crawlLoop.eq_def, hq]
  simp only [dif_pos hp, hn, hv, ho, Bool.false_eq_true, if_false, if_true]

theorem crawlLoop_fetch (net : NetOracle) (cfg : ExtractorConfig) (st : CrawlState)
    (url nu : Str) (rest : List Str) (hq : st.queue = url :: rest)
    (hp : st.pages.length < cfg.maxPages) (hn : net.normalizeUrl url = some nu)
    (hv : st.visited.contains nu = false)
    (ho : (cfg.sameOriginOnly && !(net.isSameOrigin nu cfg.themeUrl)) = false) :
    crawlLoop net cfg st =
      crawlLoop net cfg
        { queue := rest ++ (net.fetchPage nu).internalLinks.filter
            (fun l => !((st.visited ++ [nu]).contains l))
          visited := st.visited ++ [nu]
          pages := st.pages ++
            [{ url := nu, finalUrl := (net.fetchPage nu).finalUrl
               status := (net.fetchPage nu).status
               htmlSnippet := (net.fetchPage nu).html.take 2000
               fullHtml := (net.fetchPage nu).html
               cssLinks := (net.fetchPage nu).cssLinks
               jsLinks := (net.fetchPage nu).jsLinks
               internalLinks := (net.fetchPage nu).internalLinks
               error := (net.fetchPage nu).error }]
          allCssLinks := (net.fetchPage nu).cssLinks.foldl addUniq st.allCssLinks
          totalRequests := st.totalRequests + 1
          failedRequests := st.failedRequests +
            (if (net.fetchPage nu).error.isSome then 1 else 0) } := by
  rw [crawlLoop.eq_def, hq]
  simp only [dif_pos hp, hn, hv, ho, Bool.false_eq_true, if_false]

/-! ## C4: retry gateway lemmas -/

theorem retryGo_calls_le (oracle : Nat → AttemptResult) (d : Nat) :
    ∀ rem att le, (retryGo oracle d rem att le).calls ≤ rem := by
  intro rem
  induction rem with
  | zero => intro att le; simp [retryGo]
  | succ n ih =>
    intro att le
    cases h : oracle att with
    | ok s =>
      by_cases hr : ((s == 429) || (decide (500 ≤ s))) = true
      · simpa [retryGo, h, hr] using Nat.succ_le_succ (ih (att + 1) le)
      · simp [retryGo, h, hr]
    | raise m =>
      simpa [retryGo, h] using Nat.succ_le_succ (ih (att + 1) (some m))

theorem retryGo_delays (oracle : Nat → AttemptResult) (d : Nat) :
    ∀ rem att le, ∃ n, (retryGo oracle d rem att le).delays =
      (List.range n).map (fun k => d * 2 ^ (att + k)) := by
  intro rem
  induction rem with
  | zero => intro att le; exact ⟨0, rfl⟩
  | succ m ih =>
    intro att le
    have cons_case : ∀ rest : List Nat,
        (∃ n, rest = (List.range n).map (fun k => d * 2 ^ (att + 1 + k))) →
        ∃ n, d * 2 ^ att :: rest = (List.range n).map (fun k => d * 2 ^ (att + k)) := by
      rintro rest ⟨n, hn⟩
      refine ⟨n + 1, ?_⟩
      subst hn
      rw [List.range_succ_eq_map, List.map_cons, List.map_map]
      have ht : List.map ((fun k => d * 2 ^ (att + k)) ∘ Nat.succ) (List.range n) =
          List.map (fun k => d * 2 ^ (att + 1 + k)) (List.range n) :=
        List.map_congr_left (fun k _ => by
          simp only [Function.comp_apply, Nat.succ_eq_add_one]
          congr 1
          congr 1
          omega)
      rw [ht]
      simp
    cases h : oracle att with
    | ok s =>
      by_cases hr : ((s == 429) || (decide (500 ≤ s))) = true
      · simp only [retryGo, h, hr, if_true]
        exact cons_case _ (ih (att + 1) le)
      · exact ⟨0, by simp [retryGo, h, hr]⟩
    | raise msg =>
      by_cases hm : (m == 0) = true
      · refine ⟨0, ?_⟩
        have : m = 0 := by simpa using hm
        subst this
        simp [retryGo, h]
      · simp only [retryGo, h, hm, if_false, Bool.false_eq_true]
        exact cons_case _ (ih (att + 1) (some msg))

theorem retryGo_first_success (oracle : Nat → AttemptResult) (d : Nat) :
    ∀ k rem att le s, k < rem →
      oracle (att + k) = AttemptResult.ok s →
      ((s == 429) || (decide (500 ≤ s))) = false →
      (∀ j, j < k → retriableAttempt oracle (att + j) = true) →
      (retryGo oracle d rem att le).outcome = RetryOutcome.success s ∧
      (retryGo oracle d rem att le).calls = k + 1 := by
  intro k
  induction k with
  | zero =>
    intro rem att le s hk hok hnr _
    obtain ⟨m, rfl⟩ : ∃ m, rem = m + 1 := ⟨rem - 1, by omega⟩
    rw [Nat.add_zero] at hok
    simp [retryGo, hok, hnr]
  | succ k ih =>
    intro rem att le s hk hok hnr hall
    obtain ⟨m, rfl⟩ : ∃ m, rem = m + 1 := ⟨rem - 1, by omega⟩
    have h0 := hall 0 (Nat.succ_pos k)
    rw [Nat.add_zero] at h0
    have hok' : oracle (att + 1 + k) = AttemptResult.ok s := by
      rw [show att + 1 + k = att + (k + 1) by omega]; exact hok
    have hall' : ∀ j, j < k → retriableAttempt oracle (att + 1 + j) = true := by
      intro j hj
      rw [show att + 1 + j = att + (j + 1) by omega]
      exact hall (j + 1) (by omega)
    have ihm := ih m (att + 1) le s (by omega) hok' hnr hall'
    cases h : oracle att with
    | ok s' =>
      have hr : ((s' == 429) || (decide (500 ≤ s'))) = true := by
        unfold retriableAttempt at h0; rw [h] at h0; exact h0
      have ihm := ih m (att + 1) le s (by omega) hok' hnr hall'
      constructor
      · simp only [retryGo, h, hr, if_true]; exact ihm.1
      · simp only [retryGo, h, hr, if_true]; rw [ihm.2]
    | raise msg =>
      have ihm := ih m (att + 1) (some msg) s (by omega) hok' hnr hall'
      constructor
      · simp only [retryGo, h]; exact ihm.1
      · simp only [retryGo, h]; rw [ihm.2]

/-- C4: the fetch gateway retries only on 429/5xx responses or raised
calls (any other completed response is returned as-is by the very call
that received it), performs at most `maxRetries` fetch calls, and the
backoff delay slept before retry `k` (0-indexed) is
`initialDelay * 2 ^ k` with no cap — the slept delays always form the
exact exponential prefix. -/
theorem fetchWithRetry_spec (oracle : Nat → AttemptResult) (maxRetries initialDelay : Nat) :
    (fetchWithRetry oracle maxRetries initialDelay).calls ≤ maxRetries ∧
    (∃ n, (fetchWithRetry oracle maxRetries initialDelay).delays =
      (List.range n).map (fun k => initialDelay * 2 ^ k)) ∧
    (∀ k s, k < maxRetries → oracle k = AttemptResult.ok s →
      ((s == 429) || (decide (500 ≤ s))) = false →
      (∀ j, j < k → retriableAttempt oracle j = true) →
      (fetchWithRetry oracle maxRetries initialDelay).outcome = RetryOutcome.success s ∧
      (fetchWithRetry oracle maxRetries initialDelay).calls = k + 1) := by
  refine ⟨retryGo_calls_le oracle initialDelay maxRetries 0 none, ?_, ?_⟩
  · obtain ⟨n, hn⟩ := retryGo_delays oracle initialDelay maxRetries 0 none
    exact ⟨n, by simpa using hn⟩
  · intro k s hk hok hnr hall
    exact retryGo_first_success oracle initialDelay k maxRetries 0 none s hk
      (by simpa using hok) hnr (fun j hj => by simpa using hall j hj)

/-- Witness for C4 at a concrete oracle: the first attempt raises, the
second returns a plain 404, which is surfaced as-is after exactly two
calls and one slept delay of `1000 * 2 ^ 0`. -/
theorem fetchWithRetry_spec_witness :
    (1 < 3 ∧ oracleC4 1 = AttemptResult.ok 404 ∧
      ((404 == 429) || (decide (500 ≤ 404))) = false ∧
      (∀ j, j < 1 → retriableAttempt oracleC4 j = true)) ∧
    (fetchWithRetry oracleC4 3 1000).outcome = RetryOutcome.success 404 ∧
    (fetchWithRetry oracleC4 3 1000).calls = 2 :=
  ⟨⟨by decide, by decide, by decide, by decide⟩,
    (fetchWithRetry_spec oracleC4 3 1000).2.2 1 404 (by decide) (by decide) (by decide)
      (by decide)⟩

/-! ## C1: bound, dedup, and stopping condition of the crawl loop -/

theorem crawlLoop_inv (net : NetOracle) (cfg : ExtractorConfig) (st : CrawlState) :
    ((st.pages.map (fun p => p.url)).Nodup ∧
     (∀ u ∈ st.pages.map (fun p => p.url), u ∈ st.visited) ∧
     st.pages.length ≤ cfg.maxPages) →
    (((crawlLoop net cfg st).pages.map (fun p => p.url)).Nodup ∧
     (crawlLoop net cfg st).pages.length ≤ cfg.maxPages ∧
     ((crawlLoop net cfg st).queue = [] ∨ (crawlLoop net cfg st).pages.length = cfg.maxPages)) := by
  induction st using crawlLoop.induct net cfg with
  | case1 x hq =>
    rintro ⟨hnd, hsub, hlen⟩
    rw [crawlLoop_nil net cfg x hq]
    exact ⟨hnd, hlen, Or.inl hq⟩
  | case2 x url rest hq hp hn ih =>
    rintro ⟨hnd, hsub, hlen⟩
    rw [crawlLoop_badUrl net cfg x url rest hq hp hn]
    exact ih ⟨hnd, hsub, hlen⟩
  | case3 x url rest hq hp nu hn hv ih =>
    rintro ⟨hnd, hsub, hlen⟩
    rw [crawlLoop_visited net cfg x url nu rest hq hp hn (by simpa using hv)]
    exact ih ⟨hnd, hsub, hlen⟩
  | case4 x url rest hq hp nu hn hv visited' ho ih =>
    rintro ⟨hnd, hsub, hlen⟩
    rw [crawlLoop_crossOrigin net cfg x url nu rest hq hp hn
      (by simpa using hv) (by simpa using ho)]
    exact ih ⟨hnd, fun u hu => List.mem_append.mpr (Or.inl (hsub u hu)), hlen⟩
  | case5 x url rest hq hp nu hn hv visited' ho r page ih =>
    rintro ⟨hnd, hsub, hlen⟩
    have hnv : nu ∉ x.visited := by simpa using hv
    rw [crawlLoop_fetch net cfg x url nu rest hq hp hn
      (by simpa using hv) (by simpa using ho)]
    refine ih ⟨?_, ?_, ?_⟩
    · rw [List.map_append]
      refine List.Nodup.append hnd (by simp) ?_
      intro u hu hu'
      simp only [List.map_cons, List.map_nil, List.mem_singleton] at hu'
      subst hu'
      exact hnv (hsub u hu)
    · intro u hu
      rw [List.map_append] at hu
      rcases List.mem_append.mp hu with h | h
      · exact List.mem_append.mpr (Or.inl (hsub u h))
      · simp only [List.map_cons, List.map_nil, List.mem_singleton] at h
        subst h
        exact List.mem_append.mpr (Or.inr (by simp))
    · simpa using hp
  | case6 x url rest hq hp =>
    rintro ⟨hnd, hsub, hlen⟩
    rw [crawlLoop_full net cfg x url rest hq hp]
    exact ⟨hnd, hlen, Or.inr (by omega)⟩

/-- C1: for every configuration with `maxPages` between 1 and 20 (and in
fact for every configuration), the returned session holds at most
`maxPages` pages, no two of its pages were fetched for the same
normalized URL, and the page loop stops exactly when the frontier is
empty or the page count has reached `maxPages` — whichever comes
first. -/
theorem crawl_bounded_dedup_stop (net : NetOracle) (ro : Option Str) (rn : RobotsNet)
    (cfg : ExtractorConfig) (hlo : 1 ≤ cfg.maxPages) (hhi : cfg.maxPages ≤ 20) :
    (crawl net ro rn cfg).pages.length ≤ cfg.maxPages ∧
    ((crawl net ro rn cfg).pages.map (fun p => p.url)).Nodup ∧
    ((crawlFinal net cfg).queue = [] ∨ (crawlFinal net cfg).pages.length = cfg.maxPages) := by
  have base := crawlLoop_inv net cfg (initCrawlState cfg)
    ⟨by simp [initCrawlState], by simp [initCrawlState], by simp [initCrawlState]⟩
  have hpages : (crawl net ro rn cfg).pages = (crawlFinal net cfg).pages := rfl
  rw [hpages]
  exact ⟨base.2.1, base.1, base.2.2⟩

/-- Witness for C1 at a concrete in-range configuration and oracle. -/
theorem crawl_bounded_dedup_stop_witness :
    (1 ≤ cfgW.maxPages ∧ cfgW.maxPages ≤ 20) ∧
    ((crawl netW none (RobotsNet.resp true []) cfgW).pages.length ≤ cfgW.maxPages ∧
     ((crawl netW none (RobotsNet.resp true []) cfgW).pages.map (fun p => p.url)).Nodup ∧
     ((crawlFinal netW cfgW).queue = [] ∨ (crawlFinal netW cfgW).pages.length = cfgW.maxPages)) :=
  ⟨⟨by decide, by decide⟩,
    crawl_bounded_dedup_stop netW none (RobotsNet.resp true []) cfgW (by decide) (by decide)⟩

/-! ## C2: stylesheet fetch failures in the asset pass -/

theorem assetPass_spec (net : NetOracle) :
    ∀ (links : List Str) (cssC : List (Str × Str)) (total failed : Nat),
      assetPass net links (cssC, total, failed) =
        (cssC ++ links.filterMap (fun u => (net.fetchCSS u).map (fun css => (u, css))),
         total + links.length,
         failed + (links.filter (fun u => (net.fetchCSS u).isNone)).length) := by
  intro links
  induction links with
  | nil => intro cssC total failed; simp [assetPass]
  | cons u rest ih =>
    intro cssC total failed
    cases h : net.fetchCSS u with
    | some css =>
      simp only [assetPass, h, ih, List.filterMap_cons, Option.map_some, List.filter_cons,
        Option.isNone_some, Bool.false_eq_true, if_false, List.length_cons, Prod.mk.injEq]
      refine ⟨by simp, by omega, by simp⟩
    | none =>
      simp only [assetPass, h, ih, List.filterMap_cons, List.filter_cons,
        Option.isNone_none, if_true, List.length_cons, Prod.mk.injEq]
      refine ⟨by simp, by omega, by omega⟩

/-- C2 amended: a stylesheet URL whose fetch fails during the asset pass
is silently omitted from the session's stylesheet map and creates no
page-level record (the page list is exactly the page-pass result), but
both counters move: `totalRequests` counts every stylesheet URL and
`failedRequests` is incremented for every failed one. -/
theorem crawl_stylesheet_failure_accounting (net : NetOracle) (ro : Option Str)
    (rn : RobotsNet) (cfg : ExtractorConfig) (h : cfg.includeAssets = true) :
    (crawl net ro rn cfg).pages = (crawlFinal net cfg).pages ∧
    (crawl net ro rn cfg).cssContents =
      (crawlFinal net cfg).allCssLinks.filterMap
        (fun u => (net.fetchCSS u).map (fun css => (u, css))) ∧
    (crawl net ro rn cfg).totalRequests =
      (crawlFinal net cfg).totalRequests + (crawlFinal net cfg).allCssLinks.length ∧
    (crawl net ro rn cfg).failedRequests =
      (crawlFinal net cfg).failedRequests +
        ((crawlFinal net cfg).allCssLinks.filter (fun u => (net.fetchCSS u).isNone)).length := by
  refine ⟨rfl, ?_, ?_, ?_⟩ <;>
    simp [crawl, h, assetPass_spec net]

/-- C2 counterexample: a crawl whose one page references one stylesheet
and whose stylesheet fetch fails ends with `failedRequests = 1` even
though the page pass recorded no failure — the claim's "failedRequests is
not incremented" is false on the code. -/
theorem stylesheet_failure_increments_failedRequests :
    sessC2.totalRequests = 2 ∧ sessC2.failedRequests = 1 ∧
    (crawlFinal netC2 cfgC2).failedRequests = 0 ∧ sessC2.cssContents = [] := by
  have h1 : crawlFinal netC2 cfgC2 =
      { queue := [], visited := [("https://e.com/").toList]
        pages := [{ url := ("https://e.com/").toList, finalUrl := ("https://e.com/").toList
                    status := 200, htmlSnippet := [], fullHtml := []
                    cssLinks := [("https://e.com/s.css").toList], jsLinks := []
                    internalLinks := [], error := none }]
        allCssLinks := [("https://e.com/s.css").toList]
        totalRequests := 1, failedRequests := 0 } := by
    rw [crawlFinal]
    rw [crawlLoop_fetch netC2 cfgC2 (initCrawlState cfgC2) (("https://e.com/").toList)
      (("https://e.com/").toList) [] (by decide) (by decide) (by decide) (by decide) (by decide)]
    rw [crawlLoop_nil _ _ _ (by decide)]
    decide
  refine ⟨?_, ?_, ?_, ?_⟩ <;> simp only [sessC2, crawl, h1] <;> decide

/-- Witness for the amended C2 theorem at the same concrete crawl. -/
theorem crawl_stylesheet_failure_accounting_witness :
    cfgC2.includeAssets = true ∧
    (sessC2.pages = (crawlFinal netC2 cfgC2).pages ∧
     sessC2.cssContents =
       (crawlFinal netC2 cfgC2).allCssLinks.filterMap
         (fun u => (netC2.fetchCSS u).map (fun css => (u, css))) ∧
     sessC2.totalRequests =
       (crawlFinal netC2 cfgC2).totalRequests + (crawlFinal netC2 cfgC2).allCssLinks.length ∧
     sessC2.failedRequests =
       (crawlFinal netC2 cfgC2).failedRequests +
         ((crawlFinal netC2 cfgC2).allCssLinks.filter (fun u => (netC2.fetchCSS u).isNone)).length) :=
  ⟨rfl, crawl_stylesheet_failure_accounting netC2 (some (("https://e.com").toList))
    (RobotsNet.resp true []) cfgC2 rfl⟩

/-! ## C3: robots checker fail-open behaviour and advisory-only verdict -/

/-- C3 counterexample: when robots.txt is absent (a completed non-OK
response), the checker returns "allowed" with NO warning attached,
contradicting the claim that each such case carries a warning string. -/
theorem robots_absent_has_no_warning :
    checkRobotsTxt (some (("https://e.com").toList)) (RobotsNet.resp false []) = (true, none) := by
  decide

/-- C3 amended: the robots checker fails open — a raised fetch yields
"allowed" with a warning, an absent robots.txt (non-OK response) yields
"allowed" with no warning; a root-level `Disallow: /` under
`User-agent: *` yields "blocked" with a warning; and the verdict is
advisory only: sessions crawled under different robots outcomes fetch
exactly the same pages, stylesheets, and request counts. -/
theorem checkRobotsTxt_spec :
    (∀ o msg : Str, checkRobotsTxt (some o) (RobotsNet.err msg) =
      (true, some ((("Could not fetch robots.txt: ").toList) ++ msg))) ∧
    (∀ o txt : Str, checkRobotsTxt (some o) (RobotsNet.resp false txt) = (true, none)) ∧
    (∀ o : Str, checkRobotsTxt (some o)
        (RobotsNet.resp true (("User-agent: *\nDisallow: /").toList)) =
      (false, some (("robots.txt disallows crawling: /").toList))) ∧
    (∀ (net : NetOracle) (ro : Option Str) (rn rn' : RobotsNet) (cfg : ExtractorConfig),
      (crawl net ro rn cfg).pages = (crawl net ro rn' cfg).pages ∧
      (crawl net ro rn cfg).cssContents = (crawl net ro rn' cfg).cssContents ∧
      (crawl net ro rn cfg).totalRequests = (crawl net ro rn' cfg).totalRequests ∧
      (crawl net ro rn cfg).failedRequests = (crawl net ro rn' cfg).failedRequests) := by
  refine ⟨fun o msg => rfl, fun o txt => rfl, fun o => rfl, ?_⟩
  intro net ro rn rn' cfg
  exact ⟨rfl, rfl, rfl, rfl⟩

/-! ## C6: color-usage inference order and the scenario token -/

/-- C6: the background-keyword check runs first, so any variable name
matching it (for example one containing both "primary" and "bg") resolves
to `background`; and the scenario stylesheet
`:root{--color-primary-bg:#102030;}` yields exactly one ColorToken with
value `#102030`, format `hex`, usage `background`. -/
theorem extractColors_usage_order :
    (∀ name : Str,
      (containsSub (("background").toList) (lowerStr name) ||
       containsSub (("bg").toList) (lowerStr name)) = true →
      inferColorUsage name = ColorUsage.background) ∧
    (extractColors cssC6 urlC6).map (fun t => (t.value, t.format, t.usage)) =
      [((("#102030").toList), ColorFormat.hex, ColorUsage.background)] := by
  constructor
  · intro name h
    unfold inferColorUsage
    rw [if_pos h]
  · decide

/-- Witness for C6's order conjunct at the scenario's own variable name. -/
theorem extractColors_usage_order_witness :
    ((containsSub (("background").toList) (lowerStr (("color-primary-bg").toList)) ||
      containsSub (("bg").toList) (lowerStr (("color-primary-bg").toList))) = true) ∧
    inferColorUsage (("color-primary-bg").toList) = ColorUsage.background :=
  ⟨by decide, (extractColors_usage_order).1 (("color-primary-bg").toList) (by decide)⟩

/-! ## C7: extractColors is not stateless across calls -/

/-- C7 is refuted by the code: `COLOR_REGEX` is module-level, carries the
`g` flag, and `extractColors` reads its `lastIndex` in the `test` call
without resetting it first. Threading that module state through a run of
three calls, the second and third calls have identical arguments but
different results (the dirty `lastIndex = 7` left by the first call makes
the second call's `test` miss `#abc`), while a fresh call on the same
stylesheet finds the token. -/
theorem extractColors_not_stateless :
    (extractColorsRun [(cssC7a, urlC6), (cssC7b, urlC6), (cssC7b, urlC6)]).map
        (fun l => l.map (fun t => t.value)) =
      [[(("#102030").toList)], [], [(("#abc").toList)]] ∧
    (extractColorsSt cssC7a urlC6 0).2 = 7 ∧
    (extractColors cssC7b urlC6).map (fun t => t.value) = [(("#abc").toList)] := by
  refine ⟨by decide, by decide, by decide⟩

/-! ## C10: component detection reads only external stylesheets -/

/-- C10: `detectComponentPatterns` scans only the fetched external
stylesheet texts; with an empty stylesheet map it returns the empty list
whatever the pages' HTML contains. -/
theorem detectComponentPatterns_ignores_inline (session : CrawlSession)
    (h : session.cssContents = []) : detectComponentPatterns session = [] := by
  unfold detectComponentPatterns
  rw [h]
  rfl

/-- Witness for C10: a session whose pages carry component-like CSS
inline but whose stylesheet map is empty yields no component patterns. -/
theorem detectComponentPatterns_ignores_inline_witness :
    sessC10.cssContents = [] ∧ sessC10.pages ≠ [] ∧ detectComponentPatterns sessC10 = [] :=
  ⟨rfl, by decide, detectComponentPatterns_ignores_inline sessC10 rfl⟩

/-! ## C8: heading records append, the body record is overwritten -/

theorem foldl_append_eq_map {α β : Type} (f : α → β) :
    ∀ (l : List α) (acc : List β),
      l.foldl (fun acc m => acc ++ [f m]) acc = acc ++ l.map f := by
  intro l
  induction l with
  | nil => intro acc; simp
  | cons x xs ih => intro acc; simp [ih]

theorem foldl_last {α β : Type} (f : α → β) :
    ∀ (l : List α) (a : Option β),
      l.foldl (fun _ m => some (f m)) a = (l.getLast?).elim a (fun m => some (f m)) := by
  intro l
  induction l with
  | nil => intro a; rfl
  | cons x xs ih =>
    intro a
    have step : (x :: xs).foldl (fun _ m => some (f m)) a =
        xs.foldl (fun _ m => some (f m)) (some (f x)) := rfl
    rw [step, ih]
    cases xs with
    | nil => rfl
    | cons y ys =>
      rw [List.getLast?_cons_cons]
      rcases h2 : (y :: ys).getLast? with _ | m
      · exact absurd (List.getLast?_eq_none_iff.mp h2) (by simp)
      · rfl

/-- C8: every `h1`–`h6` rule match appends one heading record in scan
order (same-tag records are neither merged nor deduplicated), while only
the last `body` rule match survives as the single body-text record (none
when no `body` rule matches); in the scenario session, `h1` declared
twice yields two records in order and the second of two `body` rules
wins. -/
theorem typographyScale_append_overwrite :
    (∀ session : CrawlSession,
      (extractTypographyScale session).headings =
        (headingMatches (typographyCorpus session)).map (mkHeadingEntry session.startUrl) ∧
      (extractTypographyScale session).bodyText =
        ((bodyMatches (typographyCorpus session)).getLast?).map
          (mkBodyTextEntry session.startUrl)) ∧
    ((extractTypographyScale sessTypo).headings.map (fun h => (h.tag, h.fontSize)) =
      [((("h1").toList), some (("30px").toList)), ((("h1").toList), some (("28px").toList))] ∧
     (extractTypographyScale sessTypo).bodyText.map (fun b => b.fontSize) =
      some (some (("14px").toList))) := by
  constructor
  · intro session
    constructor
    · show (headingMatches (typographyCorpus session)).foldl
        (fun acc m => acc ++ [mkHeadingEntry session.startUrl m]) [] = _
      rw [foldl_append_eq_map]
      simp
    · show (bodyMatches (typographyCorpus session)).foldl
        (fun _ m => some (mkBodyTextEntry session.startUrl m)) none = _
      rw [foldl_last]
      cases (bodyMatches (typographyCorpus session)).getLast? <;> rfl
  · exact ⟨by decide, by decide⟩

/-! ## C9: the Image Alt Text signal -/

theorem roundQ_threeQuarters : roundQ ((3:ℚ)/4 * 100) = 75 := by
  unfold roundQ
  have h : ((3:ℚ)/4 * 100 + 1/2) = 151/2 := by norm_num
  rw [h]
  have h2 : (⌊(151/2 : ℚ)⌋ : ℤ) = 75 := by
    rw [Int.floor_eq_iff]
    constructor <;> norm_num
  rw [h2]
  decide

theorem altCoverage_sessAlt : altCoverage sessAlt = 3/4 := by
  have hn : (imgTags (a11yHTML sessAlt)).length = 4 := by decide
  have ha : ((imgTags (a11yHTML sessAlt)).filter
      (fun t => containsSub (("alt=").toList) (lowerStr t))).length = 3 := by decide
  show (if (imgTags (a11yHTML sessAlt)).length > 0 then
      ((((imgTags (a11yHTML sessAlt)).filter
        (fun t => containsSub (("alt=").toList) (lowerStr t))).length : ℚ) /
        ((imgTags (a11yHTML sessAlt)).length : ℚ))
    else 1) = 3/4
  rw [ha, hn]
  norm_num

/-- C9: the Image Alt Text signal is always emitted (exactly one such
entry), it is present exactly when the alt-coverage over all `<img>` tags
strictly exceeds 0.8, a markup with zero `<img>` tags reports full
coverage (ratio 1, present); and in the 3-of-4 scenario session the
signal has `present = false` with detail text
"3/4 images have alt text (75%)". -/
theorem altText_signal_spec :
    (∀ session : CrawlSession,
      ((detectAccessibilitySignals session).filter
        (fun sig => sig.feature == "Image Alt Text")).length = 1 ∧
      (∀ sig ∈ detectAccessibilitySignals session, sig.feature = "Image Alt Text" →
        (sig.present = true ↔ altCoverage session > 8/10)) ∧
      (imgTags (a11yHTML session) = [] → altCoverage session = 1 ∧
        ∀ sig ∈ detectAccessibilitySignals session, sig.feature = "Image Alt Text" →
          sig.present = true)) ∧
    (∀ sig ∈ detectAccessibilitySignals sessAlt, sig.feature = "Image Alt Text" →
      sig.present = false ∧
      sig.details = some ((("3/4 images have alt text (75%)").toList))) := by
  have hmem : ∀ (session : CrawlSession) (sig : AccessibilitySignal),
      sig ∈ detectAccessibilitySignals session → sig.feature = "Image Alt Text" →
      sig.present = decide (altCoverage session > 8/10) ∧
      sig.details = some (natToStr
          ((imgTags (a11yHTML session)).filter
            (fun t => containsSub (("alt=").toList) (lowerStr t))).length ++
        [('/')] ++ natToStr (imgTags (a11yHTML session)).length ++
        ((" images have alt text (").toList) ++
        natToStr (roundQ (altCoverage session * 100)) ++ (("%)").toList)) := by
    intro session sig hsig hfeat
    simp only [detectAccessibilitySignals, List.mem_cons, List.not_mem_nil, or_false] at hsig
    rcases hsig with rfl | rfl | rfl | rfl | rfl
    · simp at hfeat
    · simp at hfeat
    · simp at hfeat
    · exact ⟨rfl, rfl⟩
    · simp at hfeat
  constructor
  · intro session
    refine ⟨rfl, ?_, ?_⟩
    · intro sig hsig hfeat
      rw [(hmem session sig hsig hfeat).1]
      simp
    · intro hempty
      have hcov : altCoverage session = 1 := by
        unfold altCoverage
        rw [hempty]
        norm_num
      refine ⟨hcov, ?_⟩
      intro sig hsig hfeat
      rw [(hmem session sig hsig hfeat).1, hcov]
      norm_num
  · intro sig hsig hfeat
    obtain ⟨hp, hd⟩ := hmem sessAlt sig hsig hfeat
    constructor
    · rw [hp, altCoverage_sessAlt]
      norm_num
    · rw [hd, altCoverage_sessAlt, roundQ_threeQuarters]
      decide

/-- Witness for C9's implications at the concrete 3-of-4 session: the
filter picks exactly one signal there and the coverage is 3/4. -/
theorem altText_signal_spec_witness :
    (imgTags (a11yHTML sessAlt) ≠ [] ∧ altCoverage sessAlt = 3/4) ∧
    ((detectAccessibilitySignals sessAlt).filter
      (fun sig => sig.feature == "Image Alt Text")).length = 1 :=
  ⟨⟨by decide, altCoverage_sessAlt⟩, ((altText_signal_spec).1 sessAlt).1⟩

/-! ## C5: stack detection -/

theorem filter_orderedInsert (c : ℚ) (x : StackSignal) :
    ∀ l : List StackSignal,
      (List.orderedInsert confGe x l).filter (fun s => decide (s.confidence = c)) =
        if x.confidence = c then
          x :: l.filter (fun s => decide (s.confidence = c))
        else l.filter (fun s => decide (s.confidence = c)) := by
  intro l
  induction l with
  | nil =>
    by_cases hx : x.confidence = c <;> simp [List.orderedInsert, List.filter_cons, hx]
  | cons y ys ih =>
    rw [List.orderedInsert]
    by_cases hxy : confGe x y
    · rw [if_pos hxy]
      by_cases hx : x.confidence = c <;> simp [List.filter_cons, hx]
    · rw [if_neg hxy]
      rw [List.filter_cons]
      by_cases hy : y.confidence = c
      · by_cases hx : x.confidence = c
        · exact absurd (le_of_eq (hy.trans hx.symm)) hxy
        · simp [hy, hx, ih, List.filter_cons]
      · by_cases hx : x.confidence = c <;> simp [hy, hx, ih, List.filter_cons]

theorem filter_insertionSort (c : ℚ) :
    ∀ l : List StackSignal,
      (List.insertionSort confGe l).filter (fun s => decide (s.confidence = c)) =
        l.filter (fun s => decide (s.confidence = c)) := by
  intro l
  induction l with
  | nil => rfl
  | cons x xs ih =>
    rw [List.insertionSort, filter_orderedInsert]
    by_cases hx : x.confidence = c <;> simp [hx, ih, List.filter_cons]

theorem foldl_setByName (session : CrawlSession) :
    ∀ (l : List StackDetector) (acc : List StackSignal),
      (∀ d ∈ l, ∀ s ∈ acc, s.name ≠ d.name) →
      (l.map (fun d => d.name)).Nodup →
      l.foldl
        (fun acc d =>
          if (matchedPatterns session d).isEmpty then acc
          else setByName acc (mkStackSignal session d)) acc =
      acc ++ l.filterMap
        (fun d =>
          if (matchedPatterns session d).isEmpty then none
          else some (mkStackSignal session d)) := by
  intro l
  induction l with
  | nil => intro acc _ _; simp
  | cons d rest ih =>
    intro acc hacc hnd
    simp only [List.map_cons, List.nodup_cons] at hnd
    by_cases hm : (matchedPatterns session d).isEmpty
    · simp only [List.foldl_cons, List.filterMap_cons, hm, if_true]
      exact ih acc (fun d' hd' s hs => hacc d' (List.mem_cons_of_mem d hd') s hs) hnd.2
    · simp only [List.foldl_cons, List.filterMap_cons, hm, Bool.false_eq_true, if_false]
      have hset : setByName acc (mkStackSignal session d) = acc ++ [mkStackSignal session d] := by
        unfold setByName
        rw [if_neg]
        simp only [List.any_eq_true, not_exists, not_and]
        intro s hs
        simpa using hacc d (List.mem_cons_self d rest) s hs
      have harg : ∀ d' ∈ rest, ∀ s ∈ acc ++ [mkStackSignal session d], s.name ≠ d'.name := by
        intro d' hd' s hs
        rcases List.mem_append.mp hs with h | h
        · exact hacc d' (List.mem_cons_of_mem d hd') s h
        · rw [List.mem_singleton.mp h]
          show d.name ≠ d'.name
          intro heq
          exact hnd.1 (heq ▸ List.mem_map_of_mem (fun d => d.name) hd')
      have hrec := ih (acc ++ [mkStackSignal session d]) harg hnd.2
      rw [hset, hrec, List.append_assoc]
      rfl

theorem filterMap_signal_names_sublist (session : CrawlSession) :
    ∀ l : List StackDetector,
      ((l.filterMap
        (fun d =>
          if (matchedPatterns session d).isEmpty then none
          else some (mkStackSignal session d))).map (fun s => s.name)).Sublist
        (l.map (fun d => d.name)) := by
  intro l
  induction l with
  | nil => simp
  | cons d rest ih =>
    by_cases hm : (matchedPatterns session d).isEmpty
    · simp only [List.filterMap_cons, hm, if_true, List.map_cons]
      exact ih.cons d.name
    · simp only [List.filterMap_cons, hm, if_false, List.map_cons]
      exact ih.cons₂ d.name

theorem detector_name_inj :
    ∀ (l : List StackDetector), (l.map (fun d => d.name)).Nodup →
      ∀ d ∈ l, ∀ d' ∈ l, d.name = d'.name → d = d' := by
  intro l
  induction l with
  | nil => intro _ d hd; exact absurd hd (List.not_mem_nil d)
  | cons x xs ih =>
    intro hnd d hd d' hd' hname
    simp only [List.map_cons, List.nodup_cons] at hnd
    rcases List.mem_cons.mp hd with rfl | hd2 <;> rcases List.mem_cons.mp hd' with rfl | hd2'
    · rfl
    · exact absurd (hname ▸ List.mem_map_of_mem (fun d => d.name) hd2') hnd.1
    · exact absurd (hname ▸ List.mem_map_of_mem (fun d => d.name) hd2) hnd.1
    · exact ih hnd.2 d hd2 d' hd2' hname

theorem stack_table_names_nodup : (STACK_DETECTORS.map (fun d => d.name)).Nodup := by
  decide

theorem signalsUnsorted_eq (session : CrawlSession) :
    signalsUnsorted session =
      STACK_DETECTORS.filterMap
        (fun d =>
          if (matchedPatterns session d).isEmpty then none
          else some (mkStackSignal session d)) := by
  have h := foldl_setByName session STACK_DETECTORS []
    (fun d _ s hs => absurd hs (List.not_mem_nil s)) stack_table_names_nodup
  simpa [signalsUnsorted] using h

theorem detectStack_scenario :
    (detectStack sessStack).map (fun s => (s.name, s.confidence, s.evidence.length)) =
      [("Next.js", (1 : ℚ), 2)] := by
  have h1 : detectStack sessStack =
      [mkStackSignal sessStack (STACK_DETECTORS.get ⟨0, by decide⟩)] := rfl
  have hm : matchedPatterns sessStack (STACK_DETECTORS.get ⟨0, by decide⟩) =
      [⟨ciContains "__next_data__", 9/10, "__NEXT_DATA__ script"⟩,
       ⟨ciContains "/_next/", 8/10, "/_next/ assets"⟩] := rfl
  rw [h1]
  simp only [List.map_cons, List.map_nil, mkStackSignal, hm]
  refine congrArg (fun x => [x]) ?_
  refine congrArg (fun x => ("Next.js", x)) ?_
  refine congrArg₂ (fun a b => (a, b)) ?_ rfl
  show min (maxMatchedWeight
      [⟨ciContains "__next_data__", 9/10, "__NEXT_DATA__ script"⟩,
       ⟨ciContains "/_next/", 8/10, "/_next/ assets"⟩] +
      min ((1/10) * (((2 : Nat) : ℚ) - 1)) (3/20)) 1 = 1
  have hw : maxMatchedWeight
      [⟨ciContains "__next_data__", 9/10, "__NEXT_DATA__ script"⟩,
       ⟨ciContains "/_next/", 8/10, "/_next/ assets"⟩] = max (max 0 (9/10)) (8/10) := rfl
  rw [hw]
  norm_num

/-- C5: every detector with at least one matching fingerprint contributes
exactly one StackSignal, whose confidence is
`min (maxWeight + min (0.1 * (evidenceCount - 1)) 0.15) 1` and whose
evidence lists the matching fingerprints' descriptions in table order; a
detector with no matching fingerprint contributes nothing; the output is
sorted by non-increasing confidence with ties keeping the pre-sort
(detector-table) order; and the `__NEXT_DATA__` + `/_next/` scenario
yields the Next.js signal with confidence 1 and two evidence entries. -/
theorem detectStack_spec (session : CrawlSession) :
    (∀ d ∈ STACK_DETECTORS,
      (matchedPatterns session d ≠ [] →
        ((detectStack session).map (fun s => s.name)).count d.name = 1 ∧
        ∀ s ∈ detectStack session, s.name = d.name →
          s.confidence = min (maxMatchedWeight (matchedPatterns session d) +
            min ((1/10) * (((matchedPatterns session d).length : ℚ) - 1)) (3/20)) 1 ∧
          s.evidence = (matchedPatterns session d).map (fun p => p.descr)) ∧
      (matchedPatterns session d = [] →
        ∀ s ∈ detectStack session, s.name ≠ d.name)) ∧
    List.Sorted confGe (detectStack session) ∧
    (∀ c : ℚ, (detectStack session).filter (fun s => decide (s.confidence = c)) =
      (signalsUnsorted session).filter (fun s => decide (s.confidence = c))) ∧
    (detectStack sessStack).map (fun s => (s.name, s.confidence, s.evidence.length)) =
      [("Next.js", (1 : ℚ), 2)] := by
  have hperm : List.Perm (detectStack session) (signalsUnsorted session) :=
    List.perm_insertionSort confGe (signalsUnsorted session)
  have hnodupU : ((signalsUnsorted session).map (fun s => s.name)).Nodup := by
    rw [signalsUnsorted_eq]
    exact List.Nodup.sublist (filterMap_signal_names_sublist session STACK_DETECTORS)
      stack_table_names_nodup
  have hnodupS : ((detectStack session).map (fun s => s.name)).Nodup :=
    ((hperm.map (fun s => s.name)).nodup_iff).mpr hnodupU
  have hmemchar : ∀ s ∈ detectStack session,
      ∃ d' ∈ STACK_DETECTORS, matchedPatterns session d' ≠ [] ∧ s = mkStackSignal session d' := by
    intro s hs
    have hsU : s ∈ signalsUnsorted session := hperm.mem_iff.mp hs
    rw [signalsUnsorted_eq] at hsU
    obtain ⟨d', hd', hF⟩ := List.mem_filterMap.mp hsU
    by_cases hm : (matchedPatterns session d').isEmpty
    · rw [if_pos hm] at hF; exact absurd hF (by simp)
    · rw [if_neg hm] at hF
      exact ⟨d', hd', by simpa using hm, (Option.some.injEq _ _).mp hF |>.symm⟩
  refine ⟨?_, ?_, ?_, detectStack_scenario⟩
  · intro d hd
    constructor
    · intro hne
      have hF : (if (matchedPatterns session d).isEmpty then none
          else some (mkStackSignal session d)) = some (mkStackSignal session d) := by
        rw [if_neg (by simpa using hne)]
      have hmemU : mkStackSignal session d ∈ signalsUnsorted session := by
        rw [signalsUnsorted_eq]
        exact List.mem_filterMap.mpr ⟨d, hd, hF⟩
      have hmemS : mkStackSignal session d ∈ detectStack session := hperm.mem_iff.mpr hmemU
      constructor
      · exact List.count_eq_one_of_mem hnodupS
          (List.mem_map_of_mem (fun s => s.name) hmemS)
      · intro s hs hname
        obtain ⟨d', hd', hne', rfl⟩ := hmemchar s hs
        have : d' = d := detector_name_inj STACK_DETECTORS stack_table_names_nodup
          d' hd' d hd hname
        subst this
        exact ⟨rfl, rfl⟩
    · intro hempty s hs hname
      obtain ⟨d', hd', hne', rfl⟩ := hmemchar s hs
      have : d' = d := detector_name_inj STACK_DETECTORS stack_table_names_nodup
        d' hd' d hd hname
      subst this
      exact hne' hempty
  · exact List.sorted_insertionSort confGe (signalsUnsorted session)
  · intro c
    exact filter_insertionSort c (signalsUnsorted session)

/-- Witness for C5's implications: in the scenario session the Next.js
detector has a non-empty match list and the output carries its name
exactly once. -/
theorem detectStack_spec_witness :
    (STACK_DETECTORS.get ⟨0, by decide⟩ ∈ STACK_DETECTORS ∧
     matchedPatterns sessStack (STACK_DETECTORS.get ⟨0, by decide⟩) ≠ []) ∧
    ((detectStack sessStack).map (fun s => s.name)).count
      (STACK_DETECTORS.get ⟨0, by decide⟩).name = 1 := by
  have h0 : (0 : Nat) < STACK_DETECTORS.length := by decide
  have hd0 : STACK_DETECTORS.get ⟨0, h0⟩ ∈ STACK_DETECTORS := STACK_DETECTORS.get_mem 0 h0
  have hlen : (matchedPatterns sessStack (STACK_DETECTORS.get ⟨0, h0⟩)).length = 2 := rfl
  have hne : matchedPatterns sessStack (STACK_DETECTORS.get ⟨0, h0⟩) ≠ [] := by
    intro h
    rw [h] at hlen
    exact absurd hlen (by decide)
  exact ⟨⟨hd0, hne⟩, (((detectStack_spec sessStack).1 _ hd0).1 hne).1⟩
